import Mathlib

/-!
Verification of the backup/restore subsystem of the Mountain Made repository.

Strings from the JavaScript source are modelled as `List Char`; every function
is a direct shallow embedding of the corresponding function in
`src/controllers/backupController.js` or `src/controllers/restoreController.js`.
-/

set_option maxRecDepth 10000

/-- The single-quote character, written by code point to keep source text clean. -/
def qc : Char := Char.ofNat 39

/-- The backslash character. -/
def bsl : Char := '\\'

/-- JavaScript whitespace as relevant to `trim()` and the `\s` regex class for
the characters that can actually occur on a single line of a dump file. -/
def isJsWs (c : Char) : Bool :=
  c = ' ' || c = '\t' || c = '\n' || c = '\r' || c = '\x0b' || c = '\x0c'

/-- Model of JavaScript `String.prototype.trim` on a list of characters. -/
def jsTrim (l : List Char) : List Char :=
  ((l.dropWhile isJsWs).reverse.dropWhile isJsWs).reverse

/-- Boolean sequence-prefix test (model of `String.prototype.startsWith`). -/
def startsWithSeq : List Char → List Char → Bool
  | [], _ => true
  | _ :: _, [] => false
  | p :: ps, c :: cs => if p = c then startsWithSeq ps cs else false

/-- Boolean substring test (model of `String.prototype.includes`). -/
def containsSeq (pat : List Char) : List Char → Bool
  | [] => pat.isEmpty
  | c :: rest => startsWithSeq pat (c :: rest) || containsSeq pat rest

/-- ASCII decimal digit for `d ≤ 9` (larger arguments clamp to 9; all call
sites pass a value below 10). -/
def digitChar : Nat → Char
  | 0 => '0' | 1 => '1' | 2 => '2' | 3 => '3' | 4 => '4'
  | 5 => '5' | 6 => '6' | 7 => '7' | 8 => '8' | _ => '9'

/-- Decimal rendering of a natural number, fuelled so that it reduces in the
kernel; `natText` below supplies sufficient fuel. -/
def natTextAux : Nat → Nat → List Char
  | 0, _ => []
  | fuel + 1, n =>
    if n < 10 then [digitChar n]
    else natTextAux fuel (n / 10) ++ [digitChar (n % 10)]

/-- Decimal rendering of a natural number (model of JavaScript number-to-string
for the non-negative integers that occur in markers and messages). -/
def natText (n : Nat) : List Char := natTextAux (n + 1) n

/-- Parse a list of decimal digit characters (model of `parseInt(s, 10)` on a
string already known to match `\d+`). -/
def parseDigits (ds : List Char) : Nat :=
  ds.foldl (fun a c => 10 * a + (c.toNat - 48)) 0

/-- Uppercasing (model of `String.prototype.toUpperCase` on ASCII data). -/
def upperJs (l : List Char) : List Char := l.map Char.toUpper

/-- Lowercasing (model of `String.prototype.toLowerCase` on ASCII data). -/
def lowerJs (l : List Char) : List Char := l.map Char.toLower

namespace BackupController

/--
Model of the marker test in `countTableRowsInSql`
(`src/controllers/backupController.js` lines 73 and 82-85): a line matches
`^--\s*APP_<TABLE-UPPERCASED>_TOTAL\s*:\s*(\d+)\s*$` and the captured digits
are returned through `parseInt`.
-/
def matchMarker (tableName line : List Char) : Option Nat :=
  match line with
  | '-' :: '-' :: rest =>
    let r1 := rest.dropWhile isJsWs
    let key := ("APP_".data) ++ upperJs tableName ++ ("_TOTAL".data)
    if startsWithSeq key r1 then
      match (r1.drop key.length).dropWhile isJsWs with
      | ':' :: r3 =>
        let r4 := r3.dropWhile isJsWs
        let ds := r4.takeWhile Char.isDigit
        if ds.isEmpty then none
        else if (r4.drop ds.length).all isJsWs then some (parseDigits ds)
        else none
      | _ => none
    else none
  | _ => none

/--
Model of the bulk-load block start test
(`line.startsWith(copyPrefix) && line.includes(' FROM stdin;')` with
`copyPrefix = "COPY public.<table> "`).
-/
def isCopyStart (tableName line : List Char) : Bool :=
  startsWithSeq (("COPY public.".data) ++ tableName ++ [' ']) line &&
    containsSeq (" FROM stdin;".data) line

/-- The bulk-load terminator line content: a lone backslash-dot. -/
def copyTerminator : List Char := [bsl, '.']

/--
Loop of `countTableRowsInSql` in `src/controllers/backupController.js`
(lines 80-102): per line, first try the marker while none was found, then
track the bulk-load block, breaking at the terminator.  The final value is the
marker count if one was found, otherwise the raw count if a block was entered,
otherwise 0 (lines 104-108).
-/
def countGo (tableName : List Char) :
    List (List Char) → Option Nat → Bool → Nat → Nat
  | [], mk, inCopy, cnt => mk.getD (if inCopy then cnt else 0)
  | line :: rest, mk, inCopy, cnt =>
    let mk2 := if mk.isNone then matchMarker tableName line else mk
    if inCopy = false then
      if isCopyStart tableName line then countGo tableName rest mk2 true cnt
      else countGo tableName rest mk2 false cnt
    else if jsTrim line = copyTerminator then mk2.getD cnt
    else if (jsTrim line).isEmpty then countGo tableName rest mk2 inCopy cnt
    else countGo tableName rest mk2 inCopy (cnt + 1)

/--
Backup-side per-table dump scanner, `countTableRowsInSql` of
`src/controllers/backupController.js` (lines 68-113), on the list of lines of
the dump file.  The stream-error path (which returns `null`) is outside the
model; on every readable file the function returns a number.
-/
def countTableRowsInSql (lines : List (List Char)) (tableName : List Char) : Nat :=
  countGo tableName lines none false 0

end BackupController

namespace RestoreController

/--
Loop of `countTableRowsInSql` in `src/controllers/restoreController.js`
(lines 305-320): no marker handling at all; track the bulk-load block and
break at the terminator.
-/
def countGo (tableName : List Char) : List (List Char) → Bool → Nat → Option Nat
  | [], inCopy, cnt => if inCopy then some cnt else none
  | line :: rest, inCopy, cnt =>
    if inCopy = false then
      if BackupController.isCopyStart tableName line then countGo tableName rest true cnt
      else countGo tableName rest false cnt
    else if jsTrim line = BackupController.copyTerminator then some cnt
    else if (jsTrim line).isEmpty then countGo tableName rest inCopy cnt
    else countGo tableName rest inCopy (cnt + 1)

/--
Restore-side per-table pre-scan, `countTableRowsInSql` of
`src/controllers/restoreController.js` (lines 296-327): returns the raw count
of non-empty data lines when a block was entered and `null` (here `none`)
when the table has no bulk-load block (line 322).
-/
def countTableRowsInSql (lines : List (List Char)) (tableName : List Char) :
    Option Nat :=
  countGo tableName lines false 0

end RestoreController

namespace BackupController

/-- Once the marker value has been captured, the backup-side scan returns it,
whatever the remaining lines contain. -/
theorem countGo_marker_found (tableName : List Char) (n : Nat) :
    ∀ (lines : List (List Char)) (inCopy : Bool) (cnt : Nat),
      countGo tableName lines (some n) inCopy cnt = n := by
  intro lines
  induction lines with
  | nil => intro inCopy cnt; cases inCopy <;> rfl
  | cons line rest ih =>
    intro inCopy cnt
    simp only [countGo, Option.isNone_some, Bool.false_eq_true, if_false]
    split
    · split <;> apply ih
    · split
      · rfl
      · split <;> apply ih

/-- While no line matches the marker and no line is the terminator, the scan
keeps going; at the first marker line the marker value becomes the result. -/
theorem countGo_reaches_marker (tableName : List Char) :
    ∀ (pre : List (List Char)),
      (∀ l ∈ pre, matchMarker tableName l = none ∧
        jsTrim l ≠ copyTerminator) →
      ∀ (markerLine : List Char) (rest : List (List Char)) (n : Nat)
        (inCopy : Bool) (cnt : Nat),
        matchMarker tableName markerLine = some n →
        countGo tableName (pre ++ markerLine :: rest) none inCopy cnt = n := by
  intro pre
  induction pre with
  | nil =>
    intro _ markerLine rest n inCopy cnt hm
    simp only [List.nil_append, countGo, Option.isNone_none, if_true, hm]
    split
    · split <;> apply countGo_marker_found
    · split
      · rfl
      · split <;> apply countGo_marker_found
  | cons line pre' ih =>
    intro h markerLine rest n inCopy cnt hm
    have hmark1 := (h line (List.mem_cons_self line pre')).1
    have htrim := (h line (List.mem_cons_self line pre')).2
    have h' : ∀ l ∈ pre', matchMarker tableName l = none ∧
        jsTrim l ≠ copyTerminator :=
      fun l hl => h l (List.mem_cons_of_mem line hl)
    simp only [List.cons_append, countGo, Option.isNone_none, if_true, hmark1]
    split
    · split <;> exact ih h' markerLine rest n _ _ hm
    · split
      · exact ih h' markerLine rest n _ _ hm
      · exact ih h' markerLine rest n _ _ hm

/-- If no line of the file starts a bulk-load block for the table and no line
matches its marker, the backup-side scanner returns 0. -/
theorem countGo_absent (tableName : List Char) :
    ∀ (lines : List (List Char)) (cnt : Nat),
      (∀ l ∈ lines, isCopyStart tableName l = false ∧
        matchMarker tableName l = none) →
      countGo tableName lines none false cnt = 0 := by
  intro lines
  induction lines with
  | nil => intro cnt _; rfl
  | cons line rest ih =>
    intro cnt h
    have hcopy := (h line (List.mem_cons_self line rest)).1
    have hmark := (h line (List.mem_cons_self line rest)).2
    have h' : ∀ l ∈ rest, isCopyStart tableName l = false ∧
        matchMarker tableName l = none :=
      fun l hl => h l (List.mem_cons_of_mem line hl)
    simp only [countGo, Option.isNone_none, if_true, hmark, hcopy,
      Bool.false_eq_true, if_false]
    exact ih cnt h'

end BackupController

namespace RestoreController

/-- If no line of the file starts a bulk-load block for the table, the
restore-side scanner never enters a block and returns `none`. -/
theorem countGo_absent_restore (tableName : List Char) :
    ∀ (lines : List (List Char)) (cnt : Nat),
      (∀ l ∈ lines, BackupController.isCopyStart tableName l = false) →
      countGo tableName lines false cnt = none := by
  intro lines
  induction lines with
  | nil => intro cnt _; rfl
  | cons line rest ih =>
    intro cnt h
    have hcopy := h line (List.mem_cons_self line rest)
    have h' : ∀ l ∈ rest, BackupController.isCopyStart tableName l = false :=
      fun l hl => h l (List.mem_cons_of_mem line hl)
    simp only [countGo, hcopy, Bool.false_eq_true, if_false]
    exact ih cnt h'

end RestoreController

/-- A dump whose marker line (value 5) precedes an orders bulk-load block that
holds only two data lines: the situation of the end-to-end scenario in the
specification. -/
def sampleMarkedDump : List (List Char) :=
  [("-- APP_ORDERS_TOTAL:5".data),
   ("COPY public.orders (id) FROM stdin;".data),
   ("1".data), ("2".data), [bsl, '.']]

/-- A dump whose marker line has whitespace before the colon, a form the
source regex (`\s*` between `_TOTAL` and `:`) accepts. -/
def sampleSpacedMarkerDump : List (List Char) :=
  [("-- APP_ORDERS_TOTAL :7".data),
   ("COPY public.orders (id) FROM stdin;".data),
   ("1".data), [bsl, '.']]

/-- A dump that contains no orders bulk-load block and no orders marker. -/
def sampleNoOrdersDump : List (List Char) := [("CREATE TABLE x;".data)]

/-- A dump that contains an orders bulk-load block with zero data lines. -/
def sampleEmptyOrdersDump : List (List Char) :=
  [("COPY public.orders (id) FROM stdin;".data), [bsl, '.']]

/--
C1, counterexample: the claim extends marker authority to the restore-side
per-table pre-scan, but on a dump whose marker says 5 while the orders block
holds 2 data lines, the restore-side `countTableRowsInSql` returns the raw
count 2, not the marker value 5 (the backup-side scanner does return 5).
-/
theorem C1_counterexample :
    RestoreController.countTableRowsInSql sampleMarkedDump ("orders".data)
        = some 2 ∧
      BackupController.countTableRowsInSql sampleMarkedDump ("orders".data)
        = 5 ∧
      (2 : Nat) ≠ 5 := by decide

/--
C1 (amended): the backup-side scanner `countTableRowsInSql` returns the marker
value `n` whenever a line matching `APP_<TABLE>_TOTAL:<n>` appears before any
terminator line and before any other marker line, ignoring the raw count of
the bulk-load block; the restore-side per-table pre-scan has no marker logic
and returns the raw block count instead (shown on the concrete dump whose
marker says 5 while the block holds 2 lines).
-/
theorem C1_theorem :
    (∀ (tableName : List Char) (pre : List (List Char))
      (markerLine : List Char) (rest : List (List Char)) (n : Nat),
      (∀ l ∈ pre, BackupController.matchMarker tableName l = none ∧
        jsTrim l ≠ BackupController.copyTerminator) →
      BackupController.matchMarker tableName markerLine = some n →
      BackupController.countTableRowsInSql (pre ++ markerLine :: rest)
        tableName = n) ∧
    RestoreController.countTableRowsInSql sampleMarkedDump ("orders".data)
      = some 2 := by
  constructor
  · intro tableName pre markerLine rest n h hm
    exact BackupController.countGo_reaches_marker tableName pre h
      markerLine rest n false 0 hm
  · decide

/--
C1, witness: the backup-side scanner applied to the concrete marked dump
(marker 5, block of 2 lines) returns the marker value 5, and applied to the
dump whose marker has whitespace before the colon (`-- APP_ORDERS_TOTAL :7`,
accepted by the source regex) returns 7.
-/
theorem C1_witness :
    BackupController.countTableRowsInSql sampleMarkedDump ("orders".data)
        = 5 ∧
      BackupController.countTableRowsInSql sampleSpacedMarkerDump
        ("orders".data) = 7 := by
  constructor
  · exact C1_theorem.1 ("orders".data) []
      ("-- APP_ORDERS_TOTAL:5".data)
      [("COPY public.orders (id) FROM stdin;".data),
       ("1".data), ("2".data), [bsl, '.']] 5
      (by intro l hl; cases hl) (by decide)
  · exact C1_theorem.1 ("orders".data) []
      ("-- APP_ORDERS_TOTAL :7".data)
      [("COPY public.orders (id) FROM stdin;".data),
       ("1".data), [bsl, '.']] 7
      (by intro l hl; cases hl) (by decide)

/--
C2, counterexample: the backup-side scanner cited by the claim returns 0 when
the table has neither a bulk-load block nor a marker, the same value it
returns for a present-but-empty block, so the caller cannot distinguish
"table absent from dump" from "table empty"; there is no sentinel distinct
from 0.
-/
theorem C2_counterexample :
    BackupController.countTableRowsInSql sampleNoOrdersDump ("orders".data)
        = 0 ∧
      BackupController.countTableRowsInSql sampleEmptyOrdersDump
        ("orders".data) = 0 := by decide

/--
C2 (amended): only the restore-side per-table pre-scan returns a sentinel
(`none`, modelling `null`) when the table has no bulk-load block; the
backup-side scanner returns 0 in that situation, indistinguishable from a
present-but-empty block.
-/
theorem C2_theorem :
    (∀ (lines : List (List Char)) (tableName : List Char),
      (∀ l ∈ lines, BackupController.isCopyStart tableName l = false) →
      RestoreController.countTableRowsInSql lines tableName = none) ∧
    (∀ (lines : List (List Char)) (tableName : List Char),
      (∀ l ∈ lines, BackupController.isCopyStart tableName l = false ∧
        BackupController.matchMarker tableName l = none) →
      BackupController.countTableRowsInSql lines tableName = 0) := by
  constructor
  · intro lines tableName h
    exact RestoreController.countGo_absent_restore tableName lines 0 h
  · intro lines tableName h
    exact BackupController.countGo_absent tableName lines 0 h

/--
C2, witness: on a dump with no orders block and no orders marker the
restore-side scanner returns the sentinel `none` and the backup-side scanner
returns 0.
-/
theorem C2_witness :
    RestoreController.countTableRowsInSql sampleNoOrdersDump ("orders".data)
        = none ∧
      BackupController.countTableRowsInSql sampleNoOrdersDump ("orders".data)
        = 0 :=
  ⟨C2_theorem.1 sampleNoOrdersDump ("orders".data) (by decide),
   C2_theorem.2 sampleNoOrdersDump ("orders".data) (by decide)⟩

/--
Model of JavaScript `String.prototype.replace` with a global regex whose
pattern is the fixed character sequence `p0 :: ps`: scan left to right,
replacing non-overlapping occurrences.  Fuelled by the input length so that it
reduces in the kernel; each step consumes at least one character.
-/
def jsReplaceAllAux (p0 : Char) (ps repl : List Char) : Nat → List Char → List Char
  | 0, s => s
  | _ + 1, [] => []
  | fuel + 1, c :: rest =>
    if startsWithSeq (p0 :: ps) (c :: rest) then
      repl ++ jsReplaceAllAux p0 ps repl fuel (rest.drop ps.length)
    else c :: jsReplaceAllAux p0 ps repl fuel rest

/-- Global fixed-pattern replacement, entry point of `jsReplaceAllAux`. -/
def jsReplaceAll (p0 : Char) (ps repl s : List Char) : List Char :=
  jsReplaceAllAux p0 ps repl s.length s

namespace RestoreController

/--
Model of `decodeCopyValue` (`src/controllers/restoreController.js` lines
11-24).  The guard compares against the two-character string backslash-`N`.
Each `replace` call uses a regex literal of the form `/\\\\t/g`, whose pattern
is two literal backslashes followed by the letter, so the embedded patterns
are the two-backslash sequences (and four backslashes for the final one), as
in the source.
-/
def decodeCopyValue (value : List Char) : Option (List Char) :=
  if value = [bsl, 'N'] then none
  else
    let s1 := jsReplaceAll bsl [bsl, 't'] ['\t'] value
    let s2 := jsReplaceAll bsl [bsl, 'n'] ['\n'] s1
    let s3 := jsReplaceAll bsl [bsl, 'r'] ['\r'] s2
    let s4 := jsReplaceAll bsl [bsl, 'b'] ['\x08'] s3
    let s5 := jsReplaceAll bsl [bsl, 'f'] ['\x0c'] s4
    let s6 := jsReplaceAll bsl [bsl, 'v'] ['\x0b'] s5
    some (jsReplaceAll bsl [bsl, bsl, bsl] [bsl] s6)

end RestoreController

/--
C4: the decoder does map the exact two-character backslash-`N` input to null,
but on the single-backslash escapes the claim fails: the field containing
backslash-`t` is returned unchanged instead of decoding to a tab, because the
source regexes (`/\\\\t/g` etc.) match two backslashes before the letter; the
decoder instead rewrites double-backslash-`t` to a tab and four backslashes to
a single backslash, at odds with the one-backslash escape format the
specification (and the COPY format being decoded) prescribe.
-/
theorem C4_theorem :
    RestoreController.decodeCopyValue [bsl, 'N'] = none ∧
    RestoreController.decodeCopyValue [bsl, 't'] = some [bsl, 't'] ∧
    RestoreController.decodeCopyValue [bsl, bsl, 't'] = some ['\t'] ∧
    RestoreController.decodeCopyValue [bsl, bsl] = some [bsl, bsl] ∧
    RestoreController.decodeCopyValue [bsl, bsl, bsl, bsl] = some [bsl] := by
  decide

/-- A JavaScript number as seen by `toSqlLiteral`: either finite, carrying its
decimal rendering by `String(value)`, or one of the non-finite values. -/
inductive JsNumber where
  | finite (text : List Char)
  | nan
  | posInf
  | negInf
deriving DecidableEq

/-- A JavaScript `Date` by the UTC components that `toISOString` renders. -/
structure JsDate where
  year : Nat
  month : Nat
  day : Nat
  hour : Nat
  minute : Nat
  second : Nat
  millisecond : Nat
deriving DecidableEq

/-- The values `toSqlLiteral` distinguishes: null, undefined, numbers,
booleans, dates, and everything else by its `String(value)` rendering. -/
inductive JsValue where
  | vnull
  | vundefined
  | vnum (n : JsNumber)
  | vbool (b : Bool)
  | vdate (d : JsDate)
  | vstr (s : List Char)
deriving DecidableEq

/-- Two-digit zero padding, as in `toISOString` components. -/
def pad2 (n : Nat) : List Char := if n < 10 then '0' :: natText n else natText n

/-- Three-digit zero padding for the milliseconds of `toISOString`. -/
def pad3 (n : Nat) : List Char :=
  if n < 10 then '0' :: '0' :: natText n
  else if n < 100 then '0' :: natText n
  else natText n

/-- Four-digit zero padding for the year of `toISOString`. -/
def pad4 (n : Nat) : List Char :=
  if n < 10 then '0' :: '0' :: '0' :: natText n
  else if n < 100 then '0' :: '0' :: natText n
  else if n < 1000 then '0' :: natText n
  else natText n

/-- Model of `Date.prototype.toISOString`:
`YYYY-MM-DDTHH:MM:SS.mmmZ` over the UTC components. -/
def toISOString (d : JsDate) : List Char :=
  pad4 d.year ++ '-' :: pad2 d.month ++ '-' :: pad2 d.day ++
    'T' :: pad2 d.hour ++ ':' :: pad2 d.minute ++ ':' :: pad2 d.second ++
    '.' :: pad3 d.millisecond ++ ['Z']

/-- Model of `String.prototype.replace` with a single-character string
pattern: only the first occurrence is replaced. -/
def jsReplaceFirstChar (pat : Char) (repl : List Char) : List Char → List Char
  | [] => []
  | c :: rest =>
    if c = pat then repl ++ rest else c :: jsReplaceFirstChar pat repl rest

/-- Model of `String.prototype.replace` with a global single-character regex:
every occurrence is replaced. -/
def jsReplaceAllChar (pat : Char) (repl : List Char) : List Char → List Char
  | [] => []
  | c :: rest =>
    (if c = pat then repl else [c]) ++ jsReplaceAllChar pat repl rest

namespace BackupController

/--
Model of `toSqlLiteral` (`src/controllers/backupController.js` lines 27-34):
null and undefined give `NULL`; numbers give their decimal text when finite
and `NULL` otherwise; booleans give `TRUE`/`FALSE`; a `Date` gives its
ISO string with the first `T` replaced by a space and the first `Z` removed,
single-quoted; every other value gives its string rendering single-quoted
with each single quote doubled.
-/
def toSqlLiteral : JsValue → List Char
  | .vnull => ("NULL".data)
  | .vundefined => ("NULL".data)
  | .vnum (.finite t) => t
  | .vnum _ => ("NULL".data)
  | .vbool true => ("TRUE".data)
  | .vbool false => ("FALSE".data)
  | .vdate d =>
    [qc] ++ jsReplaceFirstChar 'Z' []
      (jsReplaceFirstChar 'T' [' '] (toISOString d)) ++ [qc]
  | .vstr s => [qc] ++ jsReplaceAllChar qc [qc, qc] s ++ [qc]

end BackupController

/-- Check that a literal ends with a quote preceded by exactly six decimal
digits after a dot, the `.ffffff` shape the specification ascribes to encoded
date/time values. -/
def endsWithSixDigitFraction (l : List Char) : Bool :=
  match l.reverse with
  | c0 :: c1 :: c2 :: c3 :: c4 :: c5 :: c6 :: c7 :: _ =>
    c0 = qc && c1.isDigit && c2.isDigit && c3.isDigit && c4.isDigit &&
      c5.isDigit && c6.isDigit && c7 = '.'
  | _ => false

section CodecLemmas

theorem digitChar_isDigit (d : Nat) : (digitChar d).isDigit = true := by
  unfold digitChar
  split <;> decide

theorem natTextAux_digit :
    ∀ (fuel n : Nat), n < fuel →
      ∀ c ∈ natTextAux fuel n, c.isDigit = true := by
  intro fuel
  induction fuel with
  | zero => intro n h; omega
  | succ fuel ih =>
    intro n _ c hc
    by_cases h10 : n < 10
    · simp only [natTextAux, h10, if_true, List.mem_singleton] at hc
      subst hc
      exact digitChar_isDigit n
    · simp only [natTextAux, h10, if_false, List.mem_append,
        List.mem_singleton] at hc
      rcases hc with hc | hc
      · have hlt : n / 10 < fuel := by omega
        · exact ih (n / 10) (by omega) c hc
      · subst hc
        exact digitChar_isDigit (n % 10)

theorem natText_digit (n : Nat) : ∀ c ∈ natText n, c.isDigit = true :=
  natTextAux_digit (n + 1) n (Nat.lt_succ_self n)

theorem pad2_digit (n : Nat) : ∀ c ∈ pad2 n, c.isDigit = true := by
  intro c hc
  unfold pad2 at hc
  split at hc
  · rcases List.mem_cons.mp hc with h | h
    · subst h; decide
    · exact natText_digit n c h
  · exact natText_digit n c hc

theorem pad3_digit (n : Nat) : ∀ c ∈ pad3 n, c.isDigit = true := by
  intro c hc
  unfold pad3 at hc
  split at hc
  · rcases List.mem_cons.mp hc with h | h
    · subst h; decide
    · rcases List.mem_cons.mp h with h2 | h2
      · subst h2; decide
      · exact natText_digit n c h2
  · split at hc
    · rcases List.mem_cons.mp hc with h | h
      · subst h; decide
      · exact natText_digit n c h
    · exact natText_digit n c hc

theorem pad4_digit (n : Nat) : ∀ c ∈ pad4 n, c.isDigit = true := by
  intro c hc
  unfold pad4 at hc
  split at hc
  · rcases List.mem_cons.mp hc with h | h
    · subst h; decide
    · rcases List.mem_cons.mp h with h2 | h2
      · subst h2; decide
      · rcases List.mem_cons.mp h2 with h3 | h3
        · subst h3; decide
        · exact natText_digit n c h3
  · split at hc
    · rcases List.mem_cons.mp hc with h | h
      · subst h; decide
      · rcases List.mem_cons.mp h with h2 | h2
        · subst h2; decide
        · exact natText_digit n c h2
    · split at hc
      · rcases List.mem_cons.mp hc with h | h
        · subst h; decide
        · exact natText_digit n c h
      · exact natText_digit n c hc

theorem jsReplaceFirstChar_hit_after (pat : Char) (repl A B : List Char)
    (h : pat ∉ A) :
    jsReplaceFirstChar pat repl (A ++ pat :: B) = A ++ repl ++ B := by
  induction A with
  | nil => simp [jsReplaceFirstChar]
  | cons c A ih =>
    have hc : ¬ c = pat := fun he => h (by simp [he])
    have hA : pat ∉ A := fun hm => h (List.mem_cons_of_mem c hm)
    simp only [List.cons_append, jsReplaceFirstChar, hc, if_false,
      List.append_eq, ih hA]

theorem not_mem_append_of (x : Char) (A B : List Char) (hA : x ∉ A)
    (hB : x ∉ B) : x ∉ A ++ B :=
  fun hm => (List.mem_append.mp hm).elim (fun h => hA h) (fun h => hB h)

theorem not_mem_cons_of (x c : Char) (B : List Char) (hc : x ≠ c)
    (hB : x ∉ B) : x ∉ c :: B :=
  fun hm => (List.mem_cons.mp hm).elim (fun h => hc h) (fun h => hB h)

theorem not_mem_of_all_digit (x : Char) (l : List Char)
    (hl : ∀ c ∈ l, c.isDigit = true) (hx : x.isDigit = false) : x ∉ l :=
  fun hm => by rw [hl x hm] at hx; cases hx

theorem not_mem_pad2 (x : Char) (n : Nat) (hx : x.isDigit = false) :
    x ∉ pad2 n := not_mem_of_all_digit x (pad2 n) (pad2_digit n) hx

theorem not_mem_pad3 (x : Char) (n : Nat) (hx : x.isDigit = false) :
    x ∉ pad3 n := not_mem_of_all_digit x (pad3 n) (pad3_digit n) hx

theorem not_mem_pad4 (x : Char) (n : Nat) (hx : x.isDigit = false) :
    x ∉ pad4 n := not_mem_of_all_digit x (pad4 n) (pad4_digit n) hx

theorem natTextAux_small (fuel m : Nat) (hf : 0 < fuel) (hm : m < 10) :
    natTextAux fuel m = [digitChar m] := by
  cases fuel with
  | zero => omega
  | succ fuel => simp [natTextAux, hm]

theorem natTextAux_two (fuel m : Nat) (hf : m < fuel) (h10 : 10 ≤ m)
    (h100 : m < 100) :
    natTextAux fuel m = [digitChar (m / 10), digitChar (m % 10)] := by
  cases fuel with
  | zero => omega
  | succ fuel =>
    have hm : ¬ m < 10 := by omega
    have hd : m / 10 < 10 := by omega
    simp [natTextAux, hm, natTextAux_small fuel (m / 10) (by omega) hd]

/-- For the millisecond range of a JavaScript date the padded fraction has
exactly three digits. -/
theorem pad3_length (n : Nat) (h : n < 1000) : (pad3 n).length = 3 := by
  by_cases h10 : n < 10
  · simp [pad3, h10, natText, natTextAux_small (n + 1) n (by omega) h10]
  · by_cases h100 : n < 100
    · simp [pad3, h10, h100, natText,
        natTextAux_two (n + 1) n (by omega) (by omega) h100]
    · have hd10 : 10 ≤ n / 10 := by omega
      have hd100 : n / 10 < 100 := by omega
      simp [pad3, h10, h100, natText, natTextAux, show ¬ n < 10 from h10,
        natTextAux_two n (n / 10) (by omega) hd10 hd100]

theorem jsReplaceAllChar_count_qc (s : List Char) :
    (jsReplaceAllChar qc [qc, qc] s).count qc = 2 * s.count qc := by
  induction s with
  | nil => rfl
  | cons c rest ih =>
    by_cases h : c = qc
    · subst h
      simp [jsReplaceAllChar, List.count_cons, ih]
      omega
    · simp [jsReplaceAllChar, List.count_cons, h, ih]

/-- The encoded date literal: quote, the `T`-for-space and `Z`-removed ISO
rendering, quote. -/
theorem toSqlLiteral_date (d : JsDate) :
    BackupController.toSqlLiteral (JsValue.vdate d) =
      [qc] ++ (pad4 d.year ++ '-' :: pad2 d.month ++ '-' :: pad2 d.day ++
        ' ' :: pad2 d.hour ++ ':' :: pad2 d.minute ++ ':' :: pad2 d.second ++
        '.' :: pad3 d.millisecond) ++ [qc] := by
  have hTnot : 'T' ∉ (pad4 d.year ++ '-' :: (pad2 d.month ++ '-' :: pad2 d.day)) := by
    refine not_mem_append_of _ _ _ (not_mem_pad4 _ _ ?_)
      (not_mem_cons_of _ _ _ ?_
        (not_mem_append_of _ _ _ (not_mem_pad2 _ _ ?_)
          (not_mem_cons_of _ _ _ ?_ (not_mem_pad2 _ _ ?_)))) <;> decide
  have hZnot : 'Z' ∉ (pad4 d.year ++ '-' :: (pad2 d.month ++ '-' :: (pad2 d.day ++
      ' ' :: (pad2 d.hour ++ ':' :: (pad2 d.minute ++ ':' :: (pad2 d.second ++
      '.' :: pad3 d.millisecond)))))) := by
    refine not_mem_append_of _ _ _ (not_mem_pad4 _ _ ?_)
      (not_mem_cons_of _ _ _ ?_
        (not_mem_append_of _ _ _ (not_mem_pad2 _ _ ?_)
          (not_mem_cons_of _ _ _ ?_
            (not_mem_append_of _ _ _ (not_mem_pad2 _ _ ?_)
              (not_mem_cons_of _ _ _ ?_
                (not_mem_append_of _ _ _ (not_mem_pad2 _ _ ?_)
                  (not_mem_cons_of _ _ _ ?_
                    (not_mem_append_of _ _ _ (not_mem_pad2 _ _ ?_)
                      (not_mem_cons_of _ _ _ ?_
                        (not_mem_append_of _ _ _ (not_mem_pad2 _ _ ?_)
                          (not_mem_cons_of _ _ _ ?_
                            (not_mem_pad3 _ _ ?_)))))))))))) <;> decide
  have hshape : toISOString d =
      (pad4 d.year ++ '-' :: (pad2 d.month ++ '-' :: pad2 d.day)) ++
        'T' :: (pad2 d.hour ++ ':' :: pad2 d.minute ++ ':' :: pad2 d.second ++
          '.' :: pad3 d.millisecond ++ ['Z']) := by
    simp [toISOString]
  have h1 := jsReplaceFirstChar_hit_after 'T' [' ']
    (pad4 d.year ++ '-' :: (pad2 d.month ++ '-' :: pad2 d.day))
    (pad2 d.hour ++ ':' :: pad2 d.minute ++ ':' :: pad2 d.second ++
      '.' :: pad3 d.millisecond ++ ['Z']) hTnot
  have hshape2 :
      (pad4 d.year ++ '-' :: (pad2 d.month ++ '-' :: pad2 d.day)) ++ [' '] ++
        (pad2 d.hour ++ ':' :: pad2 d.minute ++ ':' :: pad2 d.second ++
          '.' :: pad3 d.millisecond ++ ['Z']) =
      (pad4 d.year ++ '-' :: (pad2 d.month ++ '-' :: (pad2 d.day ++
        ' ' :: (pad2 d.hour ++ ':' :: (pad2 d.minute ++ ':' :: (pad2 d.second ++
        '.' :: pad3 d.millisecond)))))) ++ 'Z' :: [] := by
    simp
  have h2 := jsReplaceFirstChar_hit_after 'Z' []
    (pad4 d.year ++ '-' :: (pad2 d.month ++ '-' :: (pad2 d.day ++
      ' ' :: (pad2 d.hour ++ ':' :: (pad2 d.minute ++ ':' :: (pad2 d.second ++
      '.' :: pad3 d.millisecond)))))) [] hZnot
  show [qc] ++ jsReplaceFirstChar 'Z' []
      (jsReplaceFirstChar 'T' [' '] (toISOString d)) ++ [qc] = _
  rw [hshape, h1, hshape2, h2]
  simp

end CodecLemmas

/-- Every character of the encoded date literal is a digit or one of the
fixed separators. -/
theorem dateLiteral_chars (d : JsDate) :
    ∀ c ∈ [qc] ++ (pad4 d.year ++ '-' :: pad2 d.month ++ '-' :: pad2 d.day ++
      ' ' :: pad2 d.hour ++ ':' :: pad2 d.minute ++ ':' :: pad2 d.second ++
      '.' :: pad3 d.millisecond) ++ [qc],
      c.isDigit = true ∨ c = '-' ∨ c = ' ' ∨ c = ':' ∨ c = '.' ∨ c = qc := by
  simp only [List.forall_mem_append, List.forall_mem_cons,
    List.forall_mem_singleton]
  repeat' apply And.intro
  all_goals first
    | exact fun c hc => Or.inl (pad4_digit _ c hc)
    | exact fun c hc => Or.inl (pad2_digit _ c hc)
    | exact fun c hc => Or.inl (pad3_digit _ c hc)
    | decide

/-- The concrete date used to exhibit the millisecond-versus-microsecond
fraction of encoded date literals. -/
def sampleDate : JsDate := ⟨2024, 1, 2, 3, 4, 5, 678⟩

/--
C5, counterexample: the encoder renders a date with a three-digit millisecond
fraction, `2024-01-02 03:04:05.678`, not the six-digit `.ffffff` microsecond
fraction the claim states; the six-digit-fraction shape fails on this output.
-/
theorem C5_counterexample :
    BackupController.toSqlLiteral (JsValue.vdate sampleDate) =
      [qc] ++ ("2024-01-02 03:04:05.678".data) ++ [qc] ∧
    endsWithSixDigitFraction
      (BackupController.toSqlLiteral (JsValue.vdate sampleDate)) = false := by
  decide

/--
C5 (amended): the encoder is total on the modelled value space and maps null
and undefined to `NULL`; non-finite numbers to `NULL`; finite numbers to
their decimal text; booleans to `TRUE`/`FALSE`; date/time values to a
single-quoted `YYYY-MM-DD HH:MM:SS.fff` literal with a three-digit
millisecond fraction and no `T` or `Z` timezone markers; and every other
value to a single-quoted string in which every embedded single quote is
doubled (the quote count doubles exactly).
-/
theorem C5_theorem :
    (BackupController.toSqlLiteral JsValue.vnull = ("NULL".data) ∧
      BackupController.toSqlLiteral JsValue.vundefined = ("NULL".data)) ∧
    (BackupController.toSqlLiteral (JsValue.vnum JsNumber.nan) = ("NULL".data) ∧
      BackupController.toSqlLiteral (JsValue.vnum JsNumber.posInf) = ("NULL".data) ∧
      BackupController.toSqlLiteral (JsValue.vnum JsNumber.negInf) = ("NULL".data)) ∧
    (∀ t : List Char,
      BackupController.toSqlLiteral (JsValue.vnum (JsNumber.finite t)) = t) ∧
    (BackupController.toSqlLiteral (JsValue.vbool true) = ("TRUE".data) ∧
      BackupController.toSqlLiteral (JsValue.vbool false) = ("FALSE".data)) ∧
    (∀ d : JsDate,
      BackupController.toSqlLiteral (JsValue.vdate d) =
        [qc] ++ (pad4 d.year ++ '-' :: pad2 d.month ++ '-' :: pad2 d.day ++
          ' ' :: pad2 d.hour ++ ':' :: pad2 d.minute ++ ':' :: pad2 d.second ++
          '.' :: pad3 d.millisecond) ++ [qc] ∧
      'T' ∉ BackupController.toSqlLiteral (JsValue.vdate d) ∧
      'Z' ∉ BackupController.toSqlLiteral (JsValue.vdate d) ∧
      (d.millisecond < 1000 → (pad3 d.millisecond).length = 3)) ∧
    (∀ s : List Char,
      BackupController.toSqlLiteral (JsValue.vstr s) =
        [qc] ++ jsReplaceAllChar qc [qc, qc] s ++ [qc] ∧
      (jsReplaceAllChar qc [qc, qc] s).count qc = 2 * s.count qc) := by
  refine ⟨⟨rfl, rfl⟩, ⟨rfl, rfl, rfl⟩, fun t => rfl, ⟨rfl, rfl⟩, ?_, ?_⟩
  · intro d
    have heq := toSqlLiteral_date d
    refine ⟨heq, ?_, ?_, pad3_length d.millisecond⟩
    · rw [heq]
      intro hm
      rcases dateLiteral_chars d _ hm with h | h | h | h | h | h <;>
        exact absurd h (by decide)
    · rw [heq]
      intro hm
      rcases dateLiteral_chars d _ hm with h | h | h | h | h | h <;>
        exact absurd h (by decide)
  · intro s
    exact ⟨rfl, jsReplaceAllChar_count_qc s⟩

/-- The character class `[A-Za-z0-9_]` of the dollar-quote tag pattern. -/
def isWordChar (c : Char) : Bool := c.isAlphanum || c = '_'

namespace RestoreController

/-- Scanner state of `splitSqlStatements`: default, inside a single-quoted
literal, or inside a dollar-quoted body whose full tag is `t0 :: ttl`
(carried split so the tag is never empty). -/
inductive SplitMode where
  | dflt
  | squote
  | dollar (t0 : Char) (ttl : List Char)
deriving DecidableEq

/--
Loop of `splitSqlStatements` (`src/controllers/restoreController.js` lines
74-132).  `buf` holds the characters of the current statement (the slice
since `start`), `acc` the statements already emitted.  Inside a single quote
a doubled quote is consumed whole; inside a dollar quote only the exact tag
closes; in the default state a quote or a `$tag$` pattern opens the matching
state, a semicolon emits the trimmed buffer when non-empty, and at the end of
input the trimmed trailing buffer is emitted when non-empty.
-/
def splitGo (mode : SplitMode) (buf : List Char) (s : List Char)
    (acc : List (List Char)) : List (List Char) :=
  match mode, s with
  | _, [] => acc ++ (if (jsTrim buf).isEmpty then [] else [jsTrim buf])
  | .squote, c :: rest =>
    if c = qc then
      match rest with
      | c2 :: rest2 =>
        if c2 = qc then splitGo .squote (buf ++ [c, c2]) rest2 acc
        else splitGo .dflt (buf ++ [c]) (c2 :: rest2) acc
      | [] => splitGo .dflt (buf ++ [c]) [] acc
    else splitGo .squote (buf ++ [c]) rest acc
  | .dollar t0 ttl, c :: rest =>
    if startsWithSeq (t0 :: ttl) (c :: rest) then
      splitGo .dflt (buf ++ t0 :: ttl) (rest.drop ttl.length) acc
    else splitGo (.dollar t0 ttl) (buf ++ [c]) rest acc
  | .dflt, c :: rest =>
    if c = qc then splitGo .squote (buf ++ [c]) rest acc
    else if c = '$' then
      let w := rest.takeWhile isWordChar
      if (rest.drop w.length).head? = some '$' then
        splitGo (.dollar '$' (w ++ ['$'])) (buf ++ '$' :: (w ++ ['$']))
          (rest.drop (w.length + 1)) acc
      else splitGo .dflt (buf ++ [c]) rest acc
    else if c = ';' then
      splitGo .dflt [] rest
        (acc ++ (if (jsTrim (buf ++ [c])).isEmpty then []
                 else [jsTrim (buf ++ [c])]))
    else splitGo .dflt (buf ++ [c]) rest acc
termination_by s.length
decreasing_by
  all_goals simp_wf
  all_goals omega

/--
Model of `splitSqlStatements` (`src/controllers/restoreController.js` lines
74-132): the ordered list of trimmed, non-empty statements of a SQL script,
splitting at semicolons outside single-quoted literals and dollar-quoted
bodies.
-/
def splitSqlStatements (s : List Char) : List (List Char) :=
  splitGo .dflt [] s []

/-- The general body of a single-quoted SQL literal: quote-free runs
separated by doubled-quote escapes.  Every legal literal body is
`squoteBody` of its runs. -/
def squoteBody : List (List Char) → List Char
  | [] => []
  | [m] => m
  | m :: ms => m ++ qc :: qc :: squoteBody ms

theorem takeWhile_append_stop (p : Char → Bool) (w : List Char) (d : Char)
    (r : List Char) (hw : ∀ c ∈ w, p c = true) (hd : p d = false) :
    (w ++ d :: r).takeWhile p = w := by
  induction w with
  | nil => simp [List.takeWhile_cons, hd]
  | cons x w ih =>
    have hx := hw x (List.mem_cons_self x w)
    have hw' : ∀ c ∈ w, p c = true := fun c hc => hw c (List.mem_cons_of_mem x hc)
    simp [List.takeWhile_cons, hx, ih hw']

theorem drop_len_append (w x : List Char) : (w ++ x).drop w.length = x := by
  induction w with
  | nil => rfl
  | cons c w ih => simp [ih]

theorem drop_len_succ_append (w : List Char) (d : Char) (r : List Char) :
    (w ++ d :: r).drop (w.length + 1) = r := by
  induction w with
  | nil => rfl
  | cons c w ih => simp [ih]

theorem startsWithSeq_self_append (p x : List Char) :
    startsWithSeq p (p ++ x) = true := by
  induction p with
  | nil => rfl
  | cons c p ih => simp [startsWithSeq, ih]

theorem startsWithSeq_ne_head (t0 c : Char) (ttl rest : List Char)
    (h : ¬ t0 = c) : startsWithSeq (t0 :: ttl) (c :: rest) = false := by
  simp [startsWithSeq, h]

theorem splitGo_nil (mode : SplitMode) (buf : List Char)
    (acc : List (List Char)) :
    splitGo mode buf [] acc =
      acc ++ (if (jsTrim buf).isEmpty then [] else [jsTrim buf]) := by
  cases mode <;> (rw [splitGo.eq_def])

theorem splitGo_squote_inert (buf : List Char) (c : Char) (rest : List Char)
    (acc : List (List Char)) (hc : ¬ c = qc) :
    splitGo .squote buf (c :: rest) acc =
      splitGo .squote (buf ++ [c]) rest acc := by
  rw [splitGo.eq_def]
  simp [hc]

theorem splitGo_squote_close (buf : List Char) (c2 : Char)
    (rest2 : List Char) (acc : List (List Char)) (h : ¬ c2 = qc) :
    splitGo .squote buf (qc :: c2 :: rest2) acc =
      splitGo .dflt (buf ++ [qc]) (c2 :: rest2) acc := by
  rw [splitGo.eq_def]
  simp [h]

theorem splitGo_dollar_close (t0 : Char) (ttl buf : List Char) (c : Char)
    (rest : List Char) (acc : List (List Char))
    (h : startsWithSeq (t0 :: ttl) (c :: rest) = true) :
    splitGo (.dollar t0 ttl) buf (c :: rest) acc =
      splitGo .dflt (buf ++ t0 :: ttl) (rest.drop ttl.length) acc := by
  rw [splitGo.eq_def]
  simp [h]

theorem splitGo_dollar_inert (t0 : Char) (ttl buf : List Char) (c : Char)
    (rest : List Char) (acc : List (List Char))
    (h : startsWithSeq (t0 :: ttl) (c :: rest) = false) :
    splitGo (.dollar t0 ttl) buf (c :: rest) acc =
      splitGo (.dollar t0 ttl) (buf ++ [c]) rest acc := by
  rw [splitGo.eq_def]
  simp [h]

theorem splitGo_dflt_quote (buf rest : List Char) (acc : List (List Char)) :
    splitGo .dflt buf (qc :: rest) acc =
      splitGo .squote (buf ++ [qc]) rest acc := by
  rw [splitGo.eq_def]
  simp

theorem splitGo_dflt_semi (buf rest : List Char) (acc : List (List Char)) :
    splitGo .dflt buf (';' :: rest) acc =
      splitGo .dflt [] rest
        (acc ++ (if (jsTrim (buf ++ [';'])).isEmpty then []
                 else [jsTrim (buf ++ [';'])])) := by
  rw [splitGo.eq_def]
  simp [show ¬ (';' = qc) by decide, show ¬ (';' = '$') by decide]

theorem splitGo_dflt_plain (buf : List Char) (c : Char) (rest : List Char)
    (acc : List (List Char)) (h1 : ¬ c = qc) (h2 : ¬ c = '$')
    (h3 : ¬ c = ';') :
    splitGo .dflt buf (c :: rest) acc =
      splitGo .dflt (buf ++ [c]) rest acc := by
  rw [splitGo.eq_def]
  simp [h1, h2, h3]

theorem splitGo_dflt_dollar_open (buf w rest' : List Char)
    (acc : List (List Char)) (hw : ∀ c ∈ w, isWordChar c = true) :
    splitGo .dflt buf ('$' :: (w ++ '$' :: rest')) acc =
      splitGo (.dollar '$' (w ++ ['$'])) (buf ++ '$' :: (w ++ ['$']))
        rest' acc := by
  have htw : (w ++ '$' :: rest').takeWhile isWordChar = w :=
    takeWhile_append_stop isWordChar w '$' rest' hw (by decide)
  have hdrop : (w ++ '$' :: rest').drop w.length = '$' :: rest' :=
    drop_len_append w ('$' :: rest')
  have hdrop2 : (w ++ '$' :: rest').drop (w.length + 1) = rest' :=
    drop_len_succ_append w '$' rest'
  rw [splitGo.eq_def]
  simp [htw, hdrop, hdrop2, show ¬ ('$' = qc) by decide]

/-- In the default state a run of characters that are neither quote, dollar
nor semicolon is accumulated unchanged. -/
theorem splitGo_dflt_run (a : List Char) :
    ∀ (buf rest : List Char) (acc : List (List Char)),
      (∀ c ∈ a, ¬ c = qc ∧ ¬ c = '$' ∧ ¬ c = ';') →
      splitGo .dflt buf (a ++ rest) acc = splitGo .dflt (buf ++ a) rest acc := by
  induction a with
  | nil => intro buf rest acc _; simp
  | cons c a ih =>
    intro buf rest acc h
    obtain ⟨h1, h2, h3⟩ := h c (List.mem_cons_self c a)
    rw [List.cons_append, splitGo_dflt_plain buf c (a ++ rest) acc h1 h2 h3,
      ih (buf ++ [c]) rest acc (fun x hx => h x (List.mem_cons_of_mem c hx))]
    simp

/-- Variant of `splitGo_dflt_run` for a plain run that is the whole of the
remaining input. -/
theorem splitGo_dflt_run_nil (buf a : List Char) (acc : List (List Char))
    (h : ∀ c ∈ a, ¬ c = qc ∧ ¬ c = '$' ∧ ¬ c = ';') :
    splitGo .dflt buf a acc = splitGo .dflt (buf ++ a) [] acc := by
  have h2 := splitGo_dflt_run a buf [] acc h
  simpa using h2

/-- Inside a single-quoted literal a run of non-quote characters (which may
contain semicolons) is accumulated unchanged. -/
theorem splitGo_squote_run (mid : List Char) :
    ∀ (buf rest : List Char) (acc : List (List Char)),
      (∀ c ∈ mid, ¬ c = qc) →
      splitGo .squote buf (mid ++ rest) acc =
        splitGo .squote (buf ++ mid) rest acc := by
  induction mid with
  | nil => intro buf rest acc _; simp
  | cons c mid ih =>
    intro buf rest acc h
    rw [List.cons_append,
      splitGo_squote_inert buf c (mid ++ rest) acc (h c (List.mem_cons_self c mid)),
      ih (buf ++ [c]) rest acc (fun x hx => h x (List.mem_cons_of_mem c hx))]
    simp

/-- Inside a single-quoted literal a doubled quote is consumed whole and the
literal is not closed. -/
theorem splitGo_squote_pair (buf rest : List Char) (acc : List (List Char)) :
    splitGo .squote buf (qc :: qc :: rest) acc =
      splitGo .squote (buf ++ [qc, qc]) rest acc := by
  rw [splitGo.eq_def]
  simp

/-- Inside a single-quoted literal a whole body made of quote-free runs
separated by doubled-quote escapes is accumulated unchanged: no doubled
quote closes the literal. -/
theorem splitGo_squote_body (mids : List (List Char)) :
    ∀ (buf rest : List Char) (acc : List (List Char)),
      (∀ m ∈ mids, ∀ c ∈ m, ¬ c = qc) →
      splitGo .squote buf (squoteBody mids ++ rest) acc =
        splitGo .squote (buf ++ squoteBody mids) rest acc := by
  induction mids with
  | nil => intro buf rest acc _; simp [squoteBody]
  | cons m ms ih =>
    intro buf rest acc h
    have hm : ∀ c ∈ m, ¬ c = qc := h m (List.mem_cons_self m ms)
    have h' : ∀ m2 ∈ ms, ∀ c ∈ m2, ¬ c = qc :=
      fun m2 hm2 => h m2 (List.mem_cons_of_mem m hm2)
    cases ms with
    | nil => exact splitGo_squote_run m buf rest acc hm
    | cons m2 ms2 =>
      have hbody : squoteBody (m :: m2 :: ms2) =
          m ++ qc :: qc :: squoteBody (m2 :: ms2) := rfl
      rw [hbody, List.append_assoc, List.cons_append, List.cons_append,
        splitGo_squote_run m buf _ acc hm, splitGo_squote_pair,
        ih (buf ++ m ++ [qc, qc]) rest acc h']
      simp

/-- Inside a dollar-quoted body, characters at whose position the exact
closing tag does not occur are accumulated unchanged: in particular a
different `$word$` tag inside the body never closes it. -/
theorem splitGo_dollar_mid (t0 : Char) (ttl : List Char) (mid : List Char) :
    ∀ (buf rest : List Char) (acc : List (List Char)),
      (∀ n, n < mid.length →
        startsWithSeq (t0 :: ttl) (mid.drop n ++ rest) = false) →
      splitGo (.dollar t0 ttl) buf (mid ++ rest) acc =
        splitGo (.dollar t0 ttl) (buf ++ mid) rest acc := by
  induction mid with
  | nil => intro buf rest acc _; simp
  | cons c mid ih =>
    intro buf rest acc h
    have h0 : startsWithSeq (t0 :: ttl) (c :: (mid ++ rest)) = false := by
      have hh := h 0 (by simp)
      simpa using hh
    have h' : ∀ n, n < mid.length →
        startsWithSeq (t0 :: ttl) (mid.drop n ++ rest) = false := by
      intro n hn
      have hh := h (n + 1) (by simp; omega)
      simpa using hh
    rw [List.cons_append,
      splitGo_dollar_inert t0 ttl buf c (mid ++ rest) acc h0,
      ih (buf ++ [c]) rest acc h']
    simp

/-- Inside a dollar-quoted body a run of characters that never start the tag
(which may contain semicolons and quotes) is accumulated unchanged. -/
theorem splitGo_dollar_run (t0 : Char) (ttl : List Char) (mid : List Char) :
    ∀ (buf rest : List Char) (acc : List (List Char)),
      (∀ c ∈ mid, ¬ c = t0) →
      splitGo (.dollar t0 ttl) buf (mid ++ rest) acc =
        splitGo (.dollar t0 ttl) (buf ++ mid) rest acc := by
  induction mid with
  | nil => intro buf rest acc _; simp
  | cons c mid ih =>
    intro buf rest acc h
    have hne : ¬ t0 = c := fun he => (h c (List.mem_cons_self c mid)) he.symm
    rw [List.cons_append,
      splitGo_dollar_inert t0 ttl buf c (mid ++ rest) acc
        (startsWithSeq_ne_head t0 c ttl (mid ++ rest) hne),
      ih (buf ++ [c]) rest acc (fun x hx => h x (List.mem_cons_of_mem c hx))]
    simp

/-- Dropping leading whitespace from a list that ends in a non-whitespace
character keeps that last character. -/
theorem dropWhile_append_last (a : List Char) (c : Char)
    (hc : isJsWs c = false) :
    ∃ a2, (a ++ [c]).dropWhile isJsWs = a2 ++ [c] := by
  induction a with
  | nil => exact ⟨[], by simp [List.dropWhile_cons, hc]⟩
  | cons x a ih =>
    by_cases hx : isJsWs x = true
    · obtain ⟨a2, ha⟩ := ih
      exact ⟨a2, by simp [List.dropWhile_cons, hx, ha]⟩
    · exact ⟨x :: a, by simp [List.dropWhile_cons, hx]⟩

/-- Trimming a list that ends in a non-whitespace character never yields the
empty list; in particular a statement ending in a semicolon survives the
non-empty filter of the splitter. -/
theorem jsTrim_last_ne_nil (a : List Char) (c : Char)
    (hc : isJsWs c = false) : ¬ (jsTrim (a ++ [c])).isEmpty = true := by
  obtain ⟨a2, ha⟩ := dropWhile_append_last a c hc
  unfold jsTrim
  rw [ha, List.reverse_append]
  simp [List.dropWhile_cons, hc, List.isEmpty_iff]

end RestoreController

namespace RestoreController

/-- State of a PostgreSQL sequence: its stored value and the `is_called`
flag. -/
structure SequenceState where
  lastValue : Nat
  isCalled : Bool
deriving DecidableEq

/-- PostgreSQL `setval(seq, v, is_called)`. -/
def setval (v : Nat) (called : Bool) : SequenceState := ⟨v, called⟩

/-- PostgreSQL `nextval`: when `is_called` is set the sequence advances before
yielding, otherwise it yields the stored value itself. -/
def nextval (s : SequenceState) : Nat × SequenceState :=
  if s.isCalled then (s.lastValue + 1, ⟨s.lastValue + 1, true⟩)
  else (s.lastValue, ⟨s.lastValue, true⟩)

/-- `MAX(id)` over the table rows: `none` on an empty table. -/
def sqlMaxId : List Nat → Option Nat
  | [] => none
  | x :: xs => some (xs.foldl Nat.max x)

/--
Model of `syncTableSequence` (`src/controllers/restoreController.js` lines
199-212): when `pg_get_serial_sequence` yields a sequence, execute
`setval(seq, COALESCE((SELECT MAX(id) FROM t), 1), true)`; when the table has
no serial sequence the function returns without touching anything.  The
argument `ids` is the column of primary keys of the restored table.
-/
def syncTableSequence (ids : List Nat) (hasSerialSequence : Bool)
    (s : SequenceState) : SequenceState :=
  if hasSerialSequence then setval ((sqlMaxId ids).getD 1) true else s

end RestoreController

/-- Split a character list into lines at a separator, as reading the written
dump file line by line does at newlines. -/
def splitOnChar (sep : Char) : List Char → List (List Char)
  | [] => [[]]
  | c :: rest =>
    if c = sep then [] :: splitOnChar sep rest
    else
      match splitOnChar sep rest with
      | [] => [[c]]
      | l :: ls => (c :: l) :: ls

theorem splitOnChar_ne_nil (sep : Char) (l : List Char) :
    splitOnChar sep l ≠ [] := by
  cases l with
  | nil => simp [splitOnChar]
  | cons c rest =>
    by_cases h : c = sep
    · simp [splitOnChar, h]
    · simp only [splitOnChar, h, if_false]
      split <;> simp

theorem splitOnChar_sep_cons (sep : Char) (rest : List Char) :
    splitOnChar sep (sep :: rest) = [] :: splitOnChar sep rest := by
  simp [splitOnChar]

theorem splitOnChar_no_sep (sep : Char) (A : List Char)
    (h : ∀ c ∈ A, ¬ c = sep) :
    ∀ B, splitOnChar sep (A ++ sep :: B) = A :: splitOnChar sep B := by
  induction A with
  | nil => intro B; simp [splitOnChar]
  | cons c A ih =>
    intro B
    have hc := h c (List.mem_cons_self c A)
    have h' : ∀ x ∈ A, ¬ x = sep := fun x hx => h x (List.mem_cons_of_mem c hx)
    rw [List.cons_append]
    simp only [splitOnChar, hc, if_false, ih h' B]

/-- A JavaScript row object as `appendTableUpsertBlock` reads it: its fields
in order with their values. -/
abbrev Row := List ((List Char) × JsValue)

namespace BackupController

/-- The first line appended to the block in `appendTableUpsertBlock`
(source line 126): the marker comment with the row count. -/
def upsertHeader (tableName : List Char) (n : Nat) : List Char :=
  ("\n\n-- APP_".data) ++ upperJs tableName ++ ("_TOTAL:".data) ++
    natText n ++ ("\n".data)

/-- The second line appended to the block (source line 127): the description
comment. -/
def upsertComment (tableName : List Char) : List Char :=
  ("-- App-level ".data) ++ tableName ++ (" backup (ensures all ".data) ++
    tableName ++ (" rows are restorable)\n".data)

/-- The insert statement appended for one row (source lines 129-132). -/
def upsertInsertLine (tableName : List Char) (columns : List (List Char))
    (quotedColumns conflictTarget updateSet : List Char) (row : Row) :
    List Char :=
  ("INSERT INTO public.".data) ++ tableName ++ (" (".data) ++
    quotedColumns ++ (") VALUES (".data) ++
    List.intercalate (", ".data)
      (columns.map (fun col =>
        toSqlLiteral ((row.lookup col).getD JsValue.vundefined))) ++
    (") ON CONFLICT (\"".data) ++ conflictTarget ++
    ("\") DO UPDATE SET ".data) ++ updateSet ++ (";\n".data)

/--
Model of `appendTableUpsertBlock` (`src/controllers/backupController.js`
lines 115-135).  For an empty (or missing) row list nothing is appended
(`none`); otherwise the appended text is the marker comment line carrying the
row count, a description comment line, and one
`INSERT ... ON CONFLICT ... DO UPDATE SET ...` statement per row: the column
list comes from the first row, the conflict target is `id` when present and
the first column otherwise, and the update clause sets every non-target
column.  A missing field reads as `undefined`, which `toSqlLiteral` encodes
as `NULL`.
-/
def appendTableUpsertBlock (tableName : List Char) (rows : List Row) :
    Option (List Char) :=
  match rows with
  | [] => none
  | r0 :: _ =>
    let columns := r0.map Prod.fst
    let quotedColumns := List.intercalate (", ".data)
      (columns.map (fun col => ['"'] ++ col ++ ['"']))
    let conflictTarget :=
      if columns.contains ("id".data) then ("id".data) else columns.headD []
    let updateCols := columns.filter (fun col => col != conflictTarget)
    let updateSet := List.intercalate (", ".data)
      (updateCols.map (fun col =>
        ['"'] ++ col ++ ("\" = EXCLUDED.\"".data) ++ col ++ ['"']))
    some (upsertHeader tableName rows.length ++ upsertComment tableName ++
      (rows.map (upsertInsertLine tableName columns quotedColumns
        conflictTarget updateSet)).flatten)

/-- The content of the marker line inside the block, without its trailing
newline. -/
def markerLine (tableName : List Char) (n : Nat) : List Char :=
  '-' :: '-' :: (' ' :: ((("APP_".data) ++ upperJs tableName ++
    ("_TOTAL".data)) ++ (':' :: natText n)))

end BackupController

theorem takeWhile_all (p : Char → Bool) (l : List Char)
    (h : ∀ c ∈ l, p c = true) : l.takeWhile p = l := by
  induction l with
  | nil => rfl
  | cons c l ih =>
    have hc := h c (List.mem_cons_self c l)
    simp [List.takeWhile_cons, hc,
      ih (fun x hx => h x (List.mem_cons_of_mem c hx))]

theorem digit_not_ws (c : Char) (h : c.isDigit = true) : isJsWs c = false := by
  by_contra hw
  have hw2 : isJsWs c = true := by
    cases hx : isJsWs c
    · exact absurd hx hw
    · rfl
  simp only [isJsWs, Bool.or_eq_true, decide_eq_true_eq] at hw2
  rcases hw2 with ((((h1 | h1) | h1) | h1) | h1) | h1 <;>
    (subst h1; exact absurd h (by decide))

theorem dropWhile_ws_all_digit (l : List Char)
    (h : ∀ c ∈ l, c.isDigit = true) : l.dropWhile isJsWs = l := by
  cases l with
  | nil => rfl
  | cons c l =>
    have hc := digit_not_ws c (h c (List.mem_cons_self c l))
    simp [List.dropWhile_cons, hc]

theorem natTextAux_ne_nil (fuel n : Nat) (h : n < fuel) :
    natTextAux fuel n ≠ [] := by
  cases fuel with
  | zero => omega
  | succ fuel =>
    by_cases h10 : n < 10
    · simp [natTextAux, h10]
    · simp [natTextAux, h10]

theorem digitChar_toNat (d : Nat) (h : d < 10) :
    (digitChar d).toNat - 48 = d := by
  interval_cases d <;> decide

theorem parseDigits_append_one (A : List Char) (c : Char) :
    parseDigits (A ++ [c]) = 10 * parseDigits A + (c.toNat - 48) := by
  unfold parseDigits
  rw [List.foldl_append]
  rfl

theorem parseDigits_natTextAux (fuel : Nat) :
    ∀ n, n < fuel → parseDigits (natTextAux fuel n) = n := by
  induction fuel with
  | zero => intro n h; omega
  | succ fuel ih =>
    intro n h
    by_cases h10 : n < 10
    · simp only [natTextAux, h10, if_true]
      show parseDigits ([] ++ [digitChar n]) = n
      rw [parseDigits_append_one]
      have : parseDigits [] = 0 := rfl
      rw [this, digitChar_toNat n h10]
      omega
    · simp only [natTextAux, h10, if_false]
      rw [parseDigits_append_one, ih (n / 10) (by omega),
        digitChar_toNat (n % 10) (by omega)]
      omega

theorem parseDigits_natText (n : Nat) : parseDigits (natText n) = n :=
  parseDigits_natTextAux (n + 1) n (Nat.lt_succ_self n)

theorem natText_ne_nil (n : Nat) : natText n ≠ [] :=
  natTextAux_ne_nil (n + 1) n (Nat.lt_succ_self n)

namespace BackupController

/-- The emitted marker line parses back, through the scanner regex model, to
exactly the row count it was written with. -/
theorem matchMarker_emitted (tableName : List Char) (n : Nat) :
    matchMarker tableName
      ('-' :: '-' :: (' ' :: ((("APP_".data) ++ upperJs tableName ++
        ("_TOTAL".data)) ++ (':' :: natText n)))) = some n := by
  have hr1 : ((("APP_".data) ++ upperJs tableName ++ ("_TOTAL".data)) ++
      (':' :: natText n)).dropWhile isJsWs =
      (("APP_".data) ++ upperJs tableName ++ ("_TOTAL".data)) ++
        (':' :: natText n) := by
    have h1 : ((("APP_".data) ++ upperJs tableName ++ ("_TOTAL".data)) ++
        (':' :: natText n)) = ("APP_".data : List Char) ++
          (upperJs tableName ++ (("_TOTAL".data) ++ (':' :: natText n))) := by
      simp [List.append_assoc]
    rw [h1]
    rfl
  have hdigits : ∀ c ∈ natText n, c.isDigit = true := natText_digit n
  have hne' : natText n ≠ [] := natText_ne_nil n
  have hemp : (natText n).isEmpty = false := by
    cases hD : natText n with
    | nil => exact absurd hD hne'
    | cons x xs => rfl
  simp only [matchMarker]
  rw [List.dropWhile_cons]
  simp only [show isJsWs ' ' = true from rfl, if_true, hr1,
    RestoreController.startsWithSeq_self_append, if_true,
    RestoreController.drop_len_append]
  rw [List.dropWhile_cons]
  simp only [show isJsWs (':') = false from rfl, Bool.false_eq_true, if_false]
  rw [dropWhile_ws_all_digit (natText n) hdigits,
    takeWhile_all Char.isDigit (natText n) hdigits]
  simp only [hemp, Bool.false_eq_true, if_false, List.drop_length,
    List.all_nil, if_true, parseDigits_natText]

end BackupController

/-- Characters that are digits, word characters, or one of the marker
separators are never a newline. -/
theorem marker_char_ne_nl (c : Char)
    (h : c.isDigit = true ∨ isWordChar c = true ∨ c = '-' ∨ c = ' ' ∨
      c = ':') : ¬ c = '\n' := by
  intro he
  subst he
  rcases h with h | h | h | h | h <;> exact absurd h (by decide)

namespace BackupController

theorem matchMarker_markerLine (tableName : List Char) (n : Nat) :
    matchMarker tableName (markerLine tableName n) = some n :=
  matchMarker_emitted tableName n

/-- The block header is two blank lines followed by the marker line and its
newline. -/
theorem upsertHeader_decomp (tableName : List Char) (n : Nat)
    (R : List Char) :
    upsertHeader tableName n ++ R =
      '\n' :: '\n' :: (markerLine tableName n ++ '\n' :: R) := by
  simp [upsertHeader, markerLine,
    show ("\n\n-- APP_".data : List Char) =
      '\n' :: '\n' :: '-' :: '-' :: ' ' :: ("APP_".data) from rfl,
    show ("_TOTAL:".data : List Char) = ("_TOTAL".data) ++ [':'] from rfl,
    show ("\n".data : List Char) = ['\n'] from rfl, List.append_assoc]

/-- When the (uppercased) table name consists of word characters, the marker
line contains no newline. -/
theorem markerLine_no_nl (tableName : List Char) (n : Nat)
    (hU : ∀ c ∈ upperJs tableName, isWordChar c = true) :
    ∀ c ∈ markerLine tableName n, ¬ c = '\n' := by
  have hclass : ∀ c ∈ markerLine tableName n,
      c.isDigit = true ∨ isWordChar c = true ∨ c = '-' ∨ c = ' ' ∨
        c = ':' := by
    simp only [markerLine, List.forall_mem_cons, List.forall_mem_append]
    repeat' apply And.intro
    all_goals first
      | decide
      | exact fun c hc => Or.inr (Or.inl (hU c hc))
      | exact fun c hc => Or.inl (natText_digit n c hc)
  exact fun c hc => marker_char_ne_nl c (hclass c hc)

/-- The scan skips a blank line without changing its state. -/
theorem countGo_blank_line (tableName : List Char) (r : List (List Char))
    (cnt : Nat) :
    countGo tableName ([] :: r) none false cnt =
      countGo tableName r none false cnt := by
  simp only [countGo]
  simp [show matchMarker tableName [] = none from rfl,
    show isCopyStart tableName [] = false from rfl]

/-- The backup-side scanner reads the marker value off any text that starts
with an emitted block header, whatever follows the marker line. -/
theorem upsertScan_with_tail (tableName : List Char) (n : Nat)
    (TAIL : List Char)
    (hU : ∀ c ∈ upperJs tableName, isWordChar c = true) :
    countTableRowsInSql
      (splitOnChar '\n' (upsertHeader tableName n ++ TAIL)) tableName
      = n := by
  rw [upsertHeader_decomp, splitOnChar_sep_cons, splitOnChar_sep_cons,
    splitOnChar_no_sep '\n' (markerLine tableName n)
      (markerLine_no_nl tableName n hU) TAIL]
  show countGo tableName
    ([] :: [] :: markerLine tableName n :: splitOnChar '\n' TAIL)
    none false 0 = n
  rw [countGo_blank_line, countGo_blank_line]
  simp only [countGo, Option.isNone_none, if_true, matchMarker_markerLine]
  split <;> apply countGo_marker_found

/-- The backup-side scanner applied to the lines of a non-empty emitted
upsert block reads back exactly the number of rows the block was generated
from. -/
theorem upsertBlock_scan (tableName : List Char) (r0 : Row) (rest : List Row)
    (hU : ∀ c ∈ upperJs tableName, isWordChar c = true) :
    countTableRowsInSql
      (splitOnChar '\n'
        ((appendTableUpsertBlock tableName (r0 :: rest)).getD []))
      tableName = (r0 :: rest).length := by
  simp only [appendTableUpsertBlock, Option.getD_some, List.append_assoc]
  exact upsertScan_with_tail tableName (r0 :: rest).length _ hU

end BackupController

/--
C6: for a non-empty list of rows the Upsert Block Generator emits first the
marker comment whose count is exactly the number of input rows (conjunct
two: the backup-side dump scanner applied to the emitted block's lines reads
back exactly the row count), then exactly one insert-with-conflict-resolution
statement per row whose column list is every field of the first row, whose
conflict target is the field `id` when present and the first field otherwise,
and whose update clause sets every non-target field (conjunct three, the
emitted text spelled out); for an empty row list it emits nothing (conjunct
one).
-/
theorem C6_theorem :
    (∀ tableName : List Char,
      BackupController.appendTableUpsertBlock tableName [] = none) ∧
    (∀ (tableName : List Char) (rows : List Row) (b : List Char),
      (∀ c ∈ upperJs tableName, isWordChar c = true) →
      BackupController.appendTableUpsertBlock tableName rows = some b →
      BackupController.countTableRowsInSql (splitOnChar '\n' b) tableName
        = rows.length) ∧
    (∀ (tableName : List Char) (r0 : Row) (rest : List Row),
      BackupController.appendTableUpsertBlock tableName (r0 :: rest) =
        some (
          let columns := r0.map Prod.fst
          let quotedColumns := List.intercalate (", ".data)
            (columns.map (fun col => ['"'] ++ col ++ ['"']))
          let conflictTarget :=
            if columns.contains ("id".data) then ("id".data)
            else columns.headD []
          let updateSet := List.intercalate (", ".data)
            ((columns.filter (fun col => col != conflictTarget)).map
              (fun col => ['"'] ++ col ++ ("\" = EXCLUDED.\"".data) ++
                col ++ ['"']))
          BackupController.upsertHeader tableName (r0 :: rest).length ++
            BackupController.upsertComment tableName ++
            ((r0 :: rest).map
              (BackupController.upsertInsertLine tableName columns
                quotedColumns conflictTarget updateSet)).flatten)) := by
  refine ⟨fun tableName => rfl, ?_, fun tableName r0 rest => rfl⟩
  intro tableName rows b hU hsome
  cases rows with
  | nil => cases hsome
  | cons r0 rest =>
    have hb : (BackupController.appendTableUpsertBlock tableName
        (r0 :: rest)).getD [] = b := by
      rw [hsome]
      rfl
    rw [← hb]
    exact BackupController.upsertBlock_scan tableName r0 rest hU

/--
C6, witness: a two-row orders block emits nothing when the list is empty, and
the emitted block for two rows scans back to a marker count of 2.
-/
theorem C6_witness :
    BackupController.appendTableUpsertBlock ("orders".data) [] = none ∧
      BackupController.countTableRowsInSql
        (splitOnChar '\n'
          ((BackupController.appendTableUpsertBlock ("orders".data)
            [[(("id".data), JsValue.vnum (JsNumber.finite ("1".data))),
              (("name".data), JsValue.vstr ("ab".data))],
             [(("id".data), JsValue.vnum (JsNumber.finite ("2".data))),
              (("name".data), JsValue.vstr ("cd".data))]]).getD []))
        ("orders".data) = 2 :=
  ⟨C6_theorem.1 ("orders".data),
   C6_theorem.2.1 ("orders".data)
     [[(("id".data), JsValue.vnum (JsNumber.finite ("1".data))),
       (("name".data), JsValue.vstr ("ab".data))],
      [(("id".data), JsValue.vnum (JsNumber.finite ("2".data))),
       (("name".data), JsValue.vstr ("cd".data))]]
     ((BackupController.appendTableUpsertBlock ("orders".data)
       [[(("id".data), JsValue.vnum (JsNumber.finite ("1".data))),
         (("name".data), JsValue.vstr ("ab".data))],
        [(("id".data), JsValue.vnum (JsNumber.finite ("2".data))),
         (("name".data), JsValue.vstr ("cd".data))]]).getD [])
     (by decide) (by rfl)⟩

/--
C3: the Statement Splitter never ends a statement at a semicolon inside a
single-quoted literal or a dollar-quoted body, a semicolon in the default
state always ends a statement, and non-empty trailing text is emitted as a
final statement.  Conjunct one: a statement holding a single-quoted literal
whose body is any sequence of quote-free runs (semicolons included)
separated by doubled-quote escapes stays whole: no inner semicolon and no
doubled quote ends it.  Conjunct two: a statement holding a dollar-quoted
body in which the exact opening tag never reoccurs before the close stays
whole — the body may contain semicolons, quotes and other `$word$` tags —
and the statement ends only after the closing tag and semicolon.  Conjunct
three: in the default state a semicolon always ends the statement and the
trimmed non-empty trailing text is emitted as a final statement.
-/
theorem C3_theorem :
    (∀ (pre : List Char) (mids : List (List Char)),
      (∀ c ∈ pre, ¬ c = qc ∧ ¬ c = '$' ∧ ¬ c = ';') →
      (∀ m ∈ mids, ∀ c ∈ m, ¬ c = qc) →
      RestoreController.splitSqlStatements
          (pre ++ [qc] ++ RestoreController.squoteBody mids ++ [qc] ++
            [')', ';'])
        = [jsTrim (pre ++ [qc] ++ RestoreController.squoteBody mids ++ [qc] ++
            [')', ';'])]) ∧
    (∀ (w mid : List Char), (∀ c ∈ w, isWordChar c = true) →
      (∀ n, n < mid.length →
        startsWithSeq ('$' :: (w ++ ['$']))
          (mid.drop n ++ (('$' :: (w ++ ['$'])) ++ [';'])) = false) →
      RestoreController.splitSqlStatements
          (('$' :: (w ++ ['$'])) ++ mid ++ ('$' :: (w ++ ['$'])) ++ [';'])
        = [jsTrim (('$' :: (w ++ ['$'])) ++ mid ++ ('$' :: (w ++ ['$'])) ++
            [';'])]) ∧
    (∀ (a b : List Char),
      (∀ c ∈ a, ¬ c = qc ∧ ¬ c = '$' ∧ ¬ c = ';') →
      (∀ c ∈ b, ¬ c = qc ∧ ¬ c = '$' ∧ ¬ c = ';') →
      RestoreController.splitSqlStatements (a ++ [';'] ++ b)
        = [jsTrim (a ++ [';'])] ++
            (if (jsTrim b).isEmpty then [] else [jsTrim b])) := by
  refine ⟨?_, ?_, ?_⟩
  · intro pre mids hpre hmids
    unfold RestoreController.splitSqlStatements
    have hform : pre ++ [qc] ++ RestoreController.squoteBody mids ++ [qc] ++
        [')', ';'] =
        pre ++ (qc :: (RestoreController.squoteBody mids ++
          (qc :: ')' :: [';']))) := by
      simp
    rw [hform, RestoreController.splitGo_dflt_run,
      RestoreController.splitGo_dflt_quote,
      RestoreController.splitGo_squote_body,
      RestoreController.splitGo_squote_close,
      RestoreController.splitGo_dflt_plain,
      RestoreController.splitGo_dflt_semi, RestoreController.splitGo_nil,
      if_neg (RestoreController.jsTrim_last_ne_nil _ ';' (by decide))]
    · simp [List.append_assoc, show jsTrim ([] : List Char) = [] from rfl]
    all_goals first | exact hpre | exact hmids | decide
  · intro w mid hw hmid
    unfold RestoreController.splitSqlStatements
    have hform : ('$' :: (w ++ ['$'])) ++ mid ++ ('$' :: (w ++ ['$'])) ++ [';']
        = '$' :: (w ++ '$' :: (mid ++ (('$' :: (w ++ ['$'])) ++ [';']))) := by
      simp
    have hclose : startsWithSeq ('$' :: (w ++ ['$']))
        ('$' :: ((w ++ ['$']) ++ [';'])) = true := by
      have h := RestoreController.startsWithSeq_self_append
        ('$' :: (w ++ ['$'])) [';']
      simpa using h
    rw [hform, RestoreController.splitGo_dflt_dollar_open,
      RestoreController.splitGo_dollar_mid,
      List.cons_append,
      RestoreController.splitGo_dollar_close _ _ _ _ _ _ hclose,
      RestoreController.drop_len_append,
      RestoreController.splitGo_dflt_semi, RestoreController.splitGo_nil,
      if_neg (RestoreController.jsTrim_last_ne_nil _ ';' (by decide))]
    · simp [List.append_assoc, show jsTrim ([] : List Char) = [] from rfl]
    all_goals first | exact hmid | exact hw
  · intro a b ha hb
    unfold RestoreController.splitSqlStatements
    have hform : a ++ [';'] ++ b = a ++ (';' :: b) := by simp
    rw [hform, RestoreController.splitGo_dflt_run,
      RestoreController.splitGo_dflt_semi,
      RestoreController.splitGo_dflt_run_nil,
      RestoreController.splitGo_nil,
      if_neg (RestoreController.jsTrim_last_ne_nil _ ';' (by decide))]
    · simp
    all_goals first | exact ha | exact hb

/--
C3, witness: the literal `(`a;b``c`)` (doubled-quote escape and inner
semicolon) stays one statement, the dollar-quoted body ` x ; $x$ y ` between
`$tag$` markers (inner semicolon and an inner different `$x$` tag) stays one
statement closed only at the exact tag, and a default-state semicolon splits
with the trailing text emitted.
-/
theorem C3_witness :
    RestoreController.splitSqlStatements
        (("INSERT INTO t VALUES (".data) ++ [qc] ++
          RestoreController.squoteBody [['a', ';', 'b'], ['c']] ++ [qc] ++
          [')', ';'])
      = [("INSERT INTO t VALUES (".data) ++ [qc] ++
          ['a', ';', 'b', qc, qc, 'c'] ++ [qc] ++ [')', ';']] ∧
    RestoreController.splitSqlStatements
        (('$' :: (['t', 'a', 'g'] ++ ['$'])) ++ (" x ; $x$ y ".data) ++
          ('$' :: (['t', 'a', 'g'] ++ ['$'])) ++ [';'])
      = [('$' :: (['t', 'a', 'g'] ++ ['$'])) ++ (" x ; $x$ y ".data) ++
          ('$' :: (['t', 'a', 'g'] ++ ['$'])) ++ [';']] ∧
    RestoreController.splitSqlStatements
        (("CREATE TABLE x".data) ++ [';'] ++ (" SELECT 1".data))
      = [("CREATE TABLE x;".data), ("SELECT 1".data)] := by
  refine ⟨?_, ?_, ?_⟩
  · have h := C3_theorem.1 ("INSERT INTO t VALUES (".data)
      [['a', ';', 'b'], ['c']] (by decide) (by decide)
    rw [h]
    decide
  · have h := C3_theorem.2.1 ['t', 'a', 'g'] (" x ; $x$ y ".data)
      (by decide) (by decide)
    rw [h]
    decide
  · have h := C3_theorem.2.2 ("CREATE TABLE x".data) (" SELECT 1".data)
      (by decide) (by decide)
    rw [h]
    decide

/--
C9, counterexample: for an empty table the resynchronizer runs
`setval(seq, 1, true)`, after which `nextval` yields 2, so the next
organically-generated id is 2, not 1 as the claim states.
-/
theorem C9_counterexample :
    (RestoreController.nextval
      (RestoreController.syncTableSequence [] true ⟨5, false⟩)).1 = 2 := by
  decide

/--
C9 (amended): for a table with a serial sequence, after restoring rows whose
maximum explicit primary key is `N` the resynchronizer leaves the sequence so
that the next organically-generated id is `N + 1`; for an empty table it sets
the sequence to value 1 with the is-called flag set, so the next
organically-generated id is 2.
-/
theorem C9_theorem :
    (∀ (ids : List Nat) (s : RestoreController.SequenceState) (N : Nat),
      RestoreController.sqlMaxId ids = some N →
      (RestoreController.nextval
        (RestoreController.syncTableSequence ids true s)).1 = N + 1) ∧
    (∀ s : RestoreController.SequenceState,
      RestoreController.syncTableSequence [] true s = ⟨1, true⟩ ∧
      (RestoreController.nextval
        (RestoreController.syncTableSequence [] true s)).1 = 2) := by
  constructor
  · intro ids s N hmax
    simp [RestoreController.syncTableSequence, RestoreController.setval,
      RestoreController.nextval, hmax]
  · intro s
    constructor <;> rfl

/--
C9, witness: a table restored with maximum id 41 yields 42 as the next
generated id, and the empty table yields 2.
-/
theorem C9_witness :
    RestoreController.sqlMaxId [7, 41, 13] = some 41 ∧
      (RestoreController.nextval
        (RestoreController.syncTableSequence [7, 41, 13] true ⟨9, true⟩)).1
        = 41 + 1 ∧
      (RestoreController.nextval
        (RestoreController.syncTableSequence [] true ⟨9, true⟩)).1 = 2 :=
  ⟨by decide,
   C9_theorem.1 [7, 41, 13] ⟨9, true⟩ 41 (by decide),
   (C9_theorem.2 ⟨9, true⟩).2⟩

/--
C5, witness: the amended encoding facts evaluated at the sample date and at a
string holding one embedded quote.
-/
theorem C5_witness :
    sampleDate.millisecond < 1000 ∧
      (pad3 sampleDate.millisecond).length = 3 ∧
      (jsReplaceAllChar qc [qc, qc] [qc]).count qc = 2 * ([qc].count qc) :=
  ⟨by decide,
   ((C5_theorem.2.2.2.2.1 sampleDate).2.2.2 (by decide)),
   (C5_theorem.2.2.2.2.2 [qc]).2⟩

deriving instance DecidableEq for Except

namespace BackupController

/-- Status of a persisted backup record. -/
inductive RecStatus where
  | completed
  | failed
deriving DecidableEq

/-- A `BackupRecord` as `Backup.create` persists it inside
`createBackupInternal`: its file size, status, and error message. -/
structure BackupRecordOut where
  fileSize : Nat
  status : RecStatus
  errorMessage : Option (List Char)
deriving DecidableEq

/-- The error object `createBackupInternal` throws: a message and the
optional `details` remediation string. -/
structure ThrownError where
  message : List Char
  details : Option (List Char)
deriving DecidableEq

/-- The snapshot summary returned on success (source lines 331-339). -/
structure BackupSnapshot where
  usersTotal : Nat
  nonAdminUsers : Nat
  usersRowsInDump : Nat
  ordersTotal : Nat
  orderItemsTotal : Nat
  ordersRowsInDump : Option Nat
  orderItemsRowsInDump : Option Nat
deriving DecidableEq

/--
Environment of one `createBackupInternal` run: the request inputs and the
outcome of each external effect, in program order.  `mkdirError` is the
rejection of `fs.mkdir`; `snapshotResult` the users-count query (its failure
is swallowed by the source, lines 262-264); `pgDumpError` the rejection
message of the `pg_dump` invocation; the `Fetched` fields are the row counts
of the step-5 re-queries; `appendError` a rejection while appending the
upsert blocks; `statSize` the file size; the `Scanned` fields are the results
of `countTableRowsInSql` on the written file (`none` models the `null` a
stream error produces).
-/
structure BackupEnv where
  isWindows : Bool
  drive : List Char
  envBackupRoot : List Char
  mkdirError : Option (List Char)
  snapshotResult : Except (List Char) (Nat × Nat)
  pgDumpError : Option (List Char)
  usersFetched : Nat
  ordersFetched : Nat
  orderItemsFetched : Nat
  appendError : Option (List Char)
  statSize : Nat
  ordersScanned : Option Nat
  orderItemsScanned : Option Nat
deriving DecidableEq

/-- The substring the source tests to recognise a missing dump executable
(line 357). -/
def pgDumpNotRecognizedPat : List Char :=
  [qc] ++ ("pg_dump".data) ++ [qc] ++ (" is not recognized".data)

/-- The remediation message for a missing dump executable (line 359). -/
def pgDumpHintMessage : List Char :=
  ("pg_dump executable not found. Set PG_DUMP_PATH in your .env to the full path of pg_dump.exe (e.g., C:/Program Files/PostgreSQL/16/bin/pg_dump.exe).".data)

/-- The remediation details for a missing dump executable (line 364). -/
def pgDumpHintDetails : List Char :=
  ("Install PostgreSQL (with pgAdmin) and point PG_DUMP_PATH to pg_dump.exe, or add the PostgreSQL bin directory to your system PATH.".data)

/-- The generic details string (line 365). -/
def pgDumpPathDetails : List Char :=
  ("Make sure PostgreSQL bin directory is in your system PATH".data)

/-- The record persisted for a failed backup (lines 346-354): size 0, status
failed, the captured message. -/
def failedRecord (msg : List Char) : BackupRecordOut := ⟨0, .failed, some msg⟩

/-- Outcome of the catch block (lines 342-367): persist a failed record,
then throw, with the remediation hint exactly when the message matches the
missing-executable pattern. -/
def pgDumpFailOutcome (msg : List Char) :
    List BackupRecordOut × Except ThrownError BackupSnapshot :=
  ([failedRecord msg],
   .error (if containsSeq pgDumpNotRecognizedPat msg then
       ⟨pgDumpHintMessage, some pgDumpHintDetails⟩
     else
       ⟨("Database backup failed: ".data) ++ msg, some pgDumpPathDetails⟩))

/-- The verification message for the users shortfall (line 294). -/
def usersVerifyMsg (total dump : Nat) : List Char :=
  ("Backup verification failed: users in database=".data) ++ natText total ++
    (", users in backup=".data) ++ natText dump

/-- The verification message for the orders shortfall (line 303). -/
def ordersVerifyMsg (total dump : Nat) : List Char :=
  ("Backup verification failed: orders in database=".data) ++ natText total ++
    (", orders in backup=".data) ++ natText dump

/-- The verification message for the order-items shortfall (line 307). -/
def orderItemsVerifyMsg (total dump : Nat) : List Char :=
  ("Backup verification failed: order_items in database=".data) ++
    natText total ++ (", order_items in backup=".data) ++ natText dump

/--
Model of `createBackupInternal` (`src/controllers/backupController.js` lines
202-368) over a `BackupEnv`, returning the list of persisted backup records
and either the thrown error or the success snapshot.  Control flow follows
the source: the Windows drive guard and the directory creation throw before
any record exists; snapshot-count failures are swallowed into zero counts;
failures of the dump invocation, of the upsert append, and of the
marker-aware count verification all flow through the one catch block that
persists a failed record and rethrows; only the fully verified path persists
a completed record.  (The queries re-fetching rows and `Backup.create`
itself are assumed to succeed, and the timestamped filename plays no role in
the modelled behaviour.)
-/
def createBackupInternal (env : BackupEnv) :
    List BackupRecordOut × Except ThrownError BackupSnapshot :=
  if env.isWindows && (jsTrim env.drive).isEmpty &&
      (jsTrim env.envBackupRoot).isEmpty then
    ([], .error ⟨("Drive is required on Windows".data), none⟩)
  else
    match env.mkdirError with
    | some m =>
      ([], .error ⟨("Failed to create backup directory: ".data) ++ m, none⟩)
    | none =>
      let usersTotal :=
        match env.snapshotResult with | .ok p => p.1 | .error _ => 0
      let nonAdminUsers :=
        match env.snapshotResult with | .ok p => p.2 | .error _ => 0
      match env.pgDumpError with
      | some msg => pgDumpFailOutcome msg
      | none =>
        match env.appendError with
        | some m => pgDumpFailOutcome m
        | none =>
          let usersRowsInDump := env.usersFetched
          if usersRowsInDump < usersTotal then
            pgDumpFailOutcome (usersVerifyMsg usersTotal usersRowsInDump)
          else
            let ordersTotal := env.ordersFetched
            let orderItemsTotal := env.orderItemsFetched
            let ordersBad :=
              match env.ordersScanned with
              | some k => decide (k < ordersTotal)
              | none => false
            let orderItemsBad :=
              match env.orderItemsScanned with
              | some k => decide (k < orderItemsTotal)
              | none => false
            if ordersBad then
              pgDumpFailOutcome
                (ordersVerifyMsg ordersTotal (env.ordersScanned.getD 0))
            else if orderItemsBad then
              pgDumpFailOutcome
                (orderItemsVerifyMsg orderItemsTotal
                  (env.orderItemsScanned.getD 0))
            else
              ([⟨env.statSize, .completed, none⟩],
               .ok ⟨usersTotal, nonAdminUsers, usersRowsInDump, ordersTotal,
                 orderItemsTotal, env.ordersScanned, env.orderItemsScanned⟩)

/-- The users snapshot count an environment yields (zero when the snapshot
query failed, as the source swallows that error). -/
def envUsersTotal (env : BackupEnv) : Nat :=
  match env.snapshotResult with | .ok p => p.1 | .error _ => 0

end BackupController

/-- The environment of a backup run whose directory creation is denied. -/
def envMkdirFail : BackupController.BackupEnv :=
  ⟨false, [], [], some ("EACCES: permission denied".data), .ok (3, 2), none,
    3, 0, 0, none, 1024, some 0, some 0⟩

/--
C7, counterexample: a failure in step 1 (directory creation) is re-raised
with no BackupRecord persisted at all — the failed-record persistence only
wraps the dump/append/verification steps, so the claim "for every failure in
steps 1 through 6 ... a BackupRecord with status failed ... is persisted
before the error is re-raised" fails at this input.
-/
theorem C7_counterexample :
    BackupController.createBackupInternal envMkdirFail =
      ([], .error
        ⟨("Failed to create backup directory: EACCES: permission denied".data),
          none⟩) := by
  decide

/--
C7 (amended): failures of the dump-tool invocation, of the upsert-block
append, and of each count-verification check persist a BackupRecord with
status failed carrying the captured message and then re-raise, with the
human-readable remediation hint exactly when the message matches the
missing-`pg_dump` pattern; on full success a completed record is persisted
with the snapshot summary, and a verification shortfall always takes the
failed path, never the completed one; but a directory-creation failure
re-raises without persisting any record, and snapshot-count failures are
swallowed (treated as zero counts) rather than re-raised.
-/
theorem C7_theorem :
    (∀ (env : BackupController.BackupEnv) (msg : List Char),
      (env.isWindows && (jsTrim env.drive).isEmpty &&
        (jsTrim env.envBackupRoot).isEmpty) = false →
      env.mkdirError = none →
      env.pgDumpError = some msg →
      BackupController.createBackupInternal env =
        ([BackupController.failedRecord msg],
         .error (if containsSeq BackupController.pgDumpNotRecognizedPat msg then
             ⟨BackupController.pgDumpHintMessage,
               some BackupController.pgDumpHintDetails⟩
           else
             ⟨("Database backup failed: ".data) ++ msg,
               some BackupController.pgDumpPathDetails⟩))) ∧
    (∀ (env : BackupController.BackupEnv) (m : List Char),
      (env.isWindows && (jsTrim env.drive).isEmpty &&
        (jsTrim env.envBackupRoot).isEmpty) = false →
      env.mkdirError = none →
      env.pgDumpError = none →
      env.appendError = some m →
      BackupController.createBackupInternal env =
        BackupController.pgDumpFailOutcome m) ∧
    (∀ env : BackupController.BackupEnv,
      (env.isWindows && (jsTrim env.drive).isEmpty &&
        (jsTrim env.envBackupRoot).isEmpty) = false →
      env.mkdirError = none →
      env.pgDumpError = none →
      env.appendError = none →
      env.usersFetched < BackupController.envUsersTotal env →
      BackupController.createBackupInternal env =
        BackupController.pgDumpFailOutcome
          (BackupController.usersVerifyMsg
            (BackupController.envUsersTotal env) env.usersFetched)) ∧
    (∀ (env : BackupController.BackupEnv) (k : Nat),
      (env.isWindows && (jsTrim env.drive).isEmpty &&
        (jsTrim env.envBackupRoot).isEmpty) = false →
      env.mkdirError = none →
      env.pgDumpError = none →
      env.appendError = none →
      ¬ env.usersFetched < BackupController.envUsersTotal env →
      env.ordersScanned = some k →
      k < env.ordersFetched →
      BackupController.createBackupInternal env =
        BackupController.pgDumpFailOutcome
          (BackupController.ordersVerifyMsg env.ordersFetched k)) ∧
    (∀ (env : BackupController.BackupEnv) (k : Nat),
      (env.isWindows && (jsTrim env.drive).isEmpty &&
        (jsTrim env.envBackupRoot).isEmpty) = false →
      env.mkdirError = none →
      env.pgDumpError = none →
      env.appendError = none →
      ¬ env.usersFetched < BackupController.envUsersTotal env →
      (∀ j, env.ordersScanned = some j → ¬ j < env.ordersFetched) →
      env.orderItemsScanned = some k →
      k < env.orderItemsFetched →
      BackupController.createBackupInternal env =
        BackupController.pgDumpFailOutcome
          (BackupController.orderItemsVerifyMsg env.orderItemsFetched k)) ∧
    (∀ env : BackupController.BackupEnv,
      (env.isWindows && (jsTrim env.drive).isEmpty &&
        (jsTrim env.envBackupRoot).isEmpty) = false →
      env.mkdirError = none →
      env.pgDumpError = none →
      env.appendError = none →
      ¬ env.usersFetched < BackupController.envUsersTotal env →
      (∀ j, env.ordersScanned = some j → ¬ j < env.ordersFetched) →
      (∀ j, env.orderItemsScanned = some j → ¬ j < env.orderItemsFetched) →
      BackupController.createBackupInternal env =
        ([⟨env.statSize, .completed, none⟩],
         .ok ⟨BackupController.envUsersTotal env,
           (match env.snapshotResult with | .ok p => p.2 | .error _ => 0),
           env.usersFetched, env.ordersFetched, env.orderItemsFetched,
           env.ordersScanned, env.orderItemsScanned⟩)) ∧
    (∀ (env : BackupController.BackupEnv) (m : List Char),
      (env.isWindows && (jsTrim env.drive).isEmpty &&
        (jsTrim env.envBackupRoot).isEmpty) = false →
      env.mkdirError = some m →
      BackupController.createBackupInternal env =
        ([], .error
          ⟨("Failed to create backup directory: ".data) ++ m, none⟩)) := by
  refine ⟨?_, ?_, ?_, ?_, ?_, ?_, ?_⟩
  · intro env msg hg hmk hpg
    simp only [BackupController.createBackupInternal, hg, hmk, hpg,
      Bool.false_eq_true, if_false, BackupController.pgDumpFailOutcome,
      BackupController.failedRecord]
  · intro env m hg hmk hpg happ
    simp only [BackupController.createBackupInternal, hg, hmk, hpg, happ,
      Bool.false_eq_true, if_false]
  · intro env hg hmk hpg happ husers
    simp only [BackupController.envUsersTotal] at husers
    simp only [BackupController.createBackupInternal, hg, hmk, hpg, happ,
      Bool.false_eq_true, if_false, husers, if_true,
      BackupController.envUsersTotal]
  · intro env k hg hmk hpg happ husers hord hk
    simp only [BackupController.envUsersTotal] at husers
    simp only [BackupController.createBackupInternal, hg, hmk, hpg, happ,
      Bool.false_eq_true, if_false, husers, hord, decide_eq_true_eq,
      Option.getD_some]
    rw [if_pos hk]
  · intro env k hg hmk hpg happ husers hordok hoi hk
    simp only [BackupController.envUsersTotal] at husers
    have hob : (match env.ordersScanned with
        | some j => decide (j < env.ordersFetched)
        | none => false) = false := by
      cases ho : env.ordersScanned with
      | none => rfl
      | some j =>
        simp only [decide_eq_false_iff_not]
        exact hordok j ho
    simp only [BackupController.createBackupInternal, hg, hmk, hpg, happ,
      Bool.false_eq_true, if_false, husers, hob, hoi, decide_eq_true_eq,
      Option.getD_some]
    rw [if_pos hk]
  · intro env hg hmk hpg happ husers hordok hoiok
    simp only [BackupController.envUsersTotal] at husers
    have hob : (match env.ordersScanned with
        | some j => decide (j < env.ordersFetched)
        | none => false) = false := by
      cases ho : env.ordersScanned with
      | none => rfl
      | some j =>
        simp only [decide_eq_false_iff_not]
        exact hordok j ho
    have hoib : (match env.orderItemsScanned with
        | some j => decide (j < env.orderItemsFetched)
        | none => false) = false := by
      cases ho : env.orderItemsScanned with
      | none => rfl
      | some j =>
        simp only [decide_eq_false_iff_not]
        exact hoiok j ho
    simp only [BackupController.createBackupInternal, hg, hmk, hpg, happ,
      Bool.false_eq_true, if_false, husers, hob, hoib,
      BackupController.envUsersTotal]
  · intro env m hg hmk
    simp only [BackupController.createBackupInternal, hg, hmk,
      Bool.false_eq_true, if_false]

/-- A missing-executable message as Windows reports it. -/
def pgDumpMissingMsg : List Char :=
  [qc] ++ ("pg_dump".data) ++ [qc] ++
    (" is not recognized as an internal or external command, operable program or batch file.".data)

/-- The environment of a backup run whose dump tool is missing. -/
def envDumpMissing : BackupController.BackupEnv :=
  ⟨true, ("C:".data), [], none, .ok (3, 2), some pgDumpMissingMsg,
    0, 0, 0, none, 0, none, none⟩

/-- The environment of a fully successful, fully verified backup run. -/
def envBackupOk : BackupController.BackupEnv :=
  ⟨false, [], [], none, .ok (3, 2), none, 3, 5, 7, none, 2048,
    some 5, some 7⟩

/--
C7, witness: a missing dump tool persists one failed record and re-raises
with the remediation hint; the fully verified run persists one completed
record with its snapshot.
-/
theorem C7_witness :
    BackupController.createBackupInternal envDumpMissing =
      ([BackupController.failedRecord pgDumpMissingMsg],
       .error ⟨BackupController.pgDumpHintMessage,
         some BackupController.pgDumpHintDetails⟩) ∧
    BackupController.createBackupInternal envBackupOk =
      ([⟨2048, .completed, none⟩],
       .ok ⟨3, 2, 3, 5, 7, some 5, some 7⟩) := by
  constructor
  · rw [C7_theorem.1 envDumpMissing pgDumpMissingMsg (by decide) rfl rfl]
    decide
  · rw [C7_theorem.2.2.2.2.2.1 envBackupOk (by decide) rfl rfl rfl
      (by decide) (by intro j hj; cases hj; decide)
      (by intro j hj; cases hj; decide)]
    decide

namespace RestoreController

/-- The rejection of an external `psql` invocation: the ENOENT spawn flag,
the error message, and the captured stderr. -/
structure ExecError where
  codeENOENT : Bool
  message : List Char
  stderr : List Char
deriving DecidableEq

/-- The lowercased `${message} ${stderr}` the classifiers inspect. -/
def errLowerText (e : ExecError) : List Char :=
  lowerJs (e.message ++ [' '] ++ e.stderr)

/--
Model of `isPsqlMissingError` (`src/controllers/restoreController.js` lines
180-188): an ENOENT code or one of three shell not-found phrases.
-/
def isPsqlMissingError (e : ExecError) : Bool :=
  e.codeENOENT ||
    containsSeq ("not recognized as an internal or external command".data)
      (errLowerText e) ||
    containsSeq ("command not found".data) (errLowerText e) ||
    containsSeq ("no such file or directory".data) (errLowerText e)

/--
Model of `isNonCriticalPsqlPermissionError` (lines 190-197); note the
JavaScript operator precedence: the last clause is the conjunction of the
`role` and `does not exist` tests.
-/
def isNonCriticalPsqlPermissionError (e : ExecError) : Bool :=
  containsSeq ("permission denied to change default privileges".data)
      (errLowerText e) ||
    containsSeq ("must be member of role".data) (errLowerText e) ||
    (containsSeq ("role".data) (errLowerText e) &&
      containsSeq ("does not exist".data) (errLowerText e))

/-- The externally visible steps a restore run performs, in order. -/
inductive RestoreAction where
  | schemaReset
  | runPsql (tolerant : Bool)
  | runFallback
  | postRepair
  | unlinkUpload
deriving DecidableEq

/--
Environment of one `restoreDatabase` call: the uploaded file (if any), the
pre-scan results, the outcome of the first native attempt, the outcome of a
tolerant retry were one to run, the outcome of a fallback execution were one
to run (executed/skipped statement counts), and the post-restore verification
counts (`.error` models the swallowed verification-query failure, leaving
the counts at zero).  Schema resets and the post-restore repair are modelled
as succeeding.
-/
structure RestoreEnv where
  file : Option (List Char)
  expectedUsers : Option Nat
  expectedOrders : Option Nat
  expectedOrderItems : Option Nat
  psqlError : Option ExecError
  tolerantError : Option ExecError
  fallbackOutcome : Except (List Char) (Nat × Nat)
  verifyCounts : Except (List Char) (Nat × Nat × Nat)
deriving DecidableEq

/-- The HTTP responses `restoreDatabase` produces.  `okSmallBackup` is the
early return of source lines 424-433, whose verification object carries no
`restoreMethod`; `okFull` is the full response of lines 435-450. -/
inductive RestoreResponse where
  | badRequest (error : List Char)
  | failure (error : List Char)
  | okSmallBackup (message : List Char) (usersCount : Nat)
      (expectedUsersFromBackup : Nat) (warning : List Char)
  | okFull (message : List Char)
      (usersCount ordersCount orderItemsCount : Nat)
      (expectedUsersFromBackup expectedOrdersFromBackup
        expectedOrderItemsFromBackup : Option Nat)
      (restoreMethod : List Char) (skippedStatements : Nat)
      (warning : Option (List Char))
deriving DecidableEq

/-- The `restoreMethod` a response reports, when it reports one. -/
def methodOf : RestoreResponse → Option (List Char)
  | .okFull _ _ _ _ _ _ _ m _ _ => some m
  | _ => none

/--
Model of `restoreDatabase` (`src/controllers/restoreController.js` lines
330-459) over a `RestoreEnv`: the ordered list of performed actions and the
response.  With no uploaded file the handler returns 400 before touching
anything.  Otherwise: schema reset; native attempt; on failure the
three-bucket classification of lines 362-380 (missing tool → second reset
and fallback; benign permission error → one tolerant native retry, no
reset; anything else → second reset and fallback); post-restore repair;
verification; the small-backup early return or the full response; and the
`finally` deletion of the uploaded file on every path that had one.
-/
def restoreDatabase (env : RestoreEnv) :
    List RestoreAction × RestoreResponse :=
  match env.file with
  | none => ([], .badRequest ("No file uploaded".data))
  | some _ =>
    let attempt : List RestoreAction ×
        Except (List Char) ((List Char) × Option (Nat × Nat)) :=
      match env.psqlError with
      | none => ([.schemaReset, .runPsql false], .ok (("psql".data), none))
      | some e =>
        if isPsqlMissingError e then
          match env.fallbackOutcome with
          | .ok st => ([.schemaReset, .runPsql false, .schemaReset,
              .runFallback], .ok (("pg-fallback(no-psql)".data), some st))
          | .error m => ([.schemaReset, .runPsql false, .schemaReset,
              .runFallback], .error m)
        else if isNonCriticalPsqlPermissionError e then
          match env.tolerantError with
          | none => ([.schemaReset, .runPsql false, .runPsql true],
              .ok (("psql-tolerant".data), none))
          | some e2 => ([.schemaReset, .runPsql false, .runPsql true],
              .error e2.message)
        else
          match env.fallbackOutcome with
          | .ok st => ([.schemaReset, .runPsql false, .schemaReset,
              .runFallback], .ok (("pg-fallback(psql-failed)".data), some st))
          | .error m => ([.schemaReset, .runPsql false, .schemaReset,
              .runFallback], .error m)
    match attempt with
    | (acts, .error m) =>
      (acts ++ [.unlinkUpload], .failure (("Restore failed: ".data) ++ m))
    | (acts, .ok (method, fallbackStats)) =>
      let acts2 := acts ++ [.postRepair]
      let counts :=
        match env.verifyCounts with | .ok c => c | .error _ => (0, 0, 0)
      let usersCount := counts.1
      let ordersCount := counts.2.1
      let orderItemsCount := counts.2.2
      let hasUsersMismatch :=
        match env.expectedUsers with
        | some n => decide (usersCount < n)
        | none => false
      let hasOrdersMismatch :=
        match env.expectedOrders with
        | some n => decide (ordersCount < n)
        | none => false
      let hasOrderItemsMismatch :=
        match env.expectedOrderItems with
        | some n => decide (orderItemsCount < n)
        | none => false
      let warnings :=
        (if hasUsersMismatch then
          [("Expected users from backup: ".data) ++
            natText (env.expectedUsers.getD 0) ++
            (", restored users: ".data) ++ natText usersCount ++ (".".data)]
        else []) ++
        (if hasOrdersMismatch then
          [("Expected orders from backup: ".data) ++
            natText (env.expectedOrders.getD 0) ++
            (", restored orders: ".data) ++ natText ordersCount ++ (".".data)]
        else []) ++
        (if hasOrderItemsMismatch then
          [("Expected order items from backup: ".data) ++
            natText (env.expectedOrderItems.getD 0) ++
            (", restored order items: ".data) ++ natText orderItemsCount ++
            (".".data)]
        else [])
      let fullResp := RestoreResponse.okFull
        (if hasUsersMismatch then
          ("Database restored successfully, but users verification found fewer users than expected from backup.".data)
        else ("Database restored successfully.".data))
        usersCount ordersCount orderItemsCount
        env.expectedUsers env.expectedOrders env.expectedOrderItems
        method
        (match fallbackStats with | some st => st.2 | none => 0)
        (if warnings.isEmpty then none
         else some (List.intercalate [' '] warnings))
      match env.expectedUsers with
      | some n =>
        if n ≤ 1 then
          (acts2 ++ [.unlinkUpload],
           .okSmallBackup
             ("Database restored successfully, but the uploaded backup contains only admin/no additional users.".data)
             usersCount n
             ("Backup file has no non-admin users to restore.".data))
        else (acts2 ++ [.unlinkUpload], fullResp)
      | none => (acts2 ++ [.unlinkUpload], fullResp)

end RestoreController

/-- A restore environment whose native tool is missing and whose uploaded
dump pre-scans to zero users: fallback execution runs, yet the early
small-backup response carries no restore method. -/
def envSmallFallback : RestoreController.RestoreEnv :=
  ⟨some ("/tmp/upload.sql".data), some 0, none, none,
   some ⟨true, ("spawn psql ENOENT".data), []⟩, none, .ok (12, 0),
   .ok (0, 0, 0)⟩

/--
C8, counterexample: with the native tool missing the restore proceeds by
fallback execution, but because the pre-scanned users count is 0 the
response is the small-backup early return, whose verification object has no
`restoreMethod` — so the response does not always report which path was
used.
-/
theorem C8_counterexample :
    RestoreController.RestoreAction.runFallback ∈
        (RestoreController.restoreDatabase envSmallFallback).1 ∧
      RestoreController.methodOf
        (RestoreController.restoreDatabase envSmallFallback).2 = none := by
  decide

/--
C8 (amended): a native-tool failure is classified into exactly three
buckets — missing executable: repeat the schema reset and restore by manual
fallback; known-benign permission/role pattern: retry the native tool
exactly once in tolerant mode with no schema reset; anything else: repeat
the schema reset and restore by manual fallback — and the response reports
the path used (`pg-fallback(no-psql)`, `psql-tolerant`,
`pg-fallback(psql-failed)`) except in the small-backup early return (at most
one pre-scanned user), whose response omits `restoreMethod`.
-/
theorem C8_theorem :
    (∀ (env : RestoreController.RestoreEnv) (p : List Char)
      (e : RestoreController.ExecError) (ex sk : Nat),
      env.file = some p →
      env.psqlError = some e →
      RestoreController.isPsqlMissingError e = true →
      env.fallbackOutcome = .ok (ex, sk) →
      (RestoreController.restoreDatabase env).1 =
        [.schemaReset, .runPsql false, .schemaReset, .runFallback,
          .postRepair, .unlinkUpload] ∧
      ((∀ n, env.expectedUsers = some n → 1 < n) →
        RestoreController.methodOf (RestoreController.restoreDatabase env).2 =
          some ("pg-fallback(no-psql)".data)) ∧
      (∀ n, env.expectedUsers = some n → n ≤ 1 →
        RestoreController.methodOf (RestoreController.restoreDatabase env).2 =
          none)) ∧
    (∀ (env : RestoreController.RestoreEnv) (p : List Char)
      (e : RestoreController.ExecError),
      env.file = some p →
      env.psqlError = some e →
      RestoreController.isPsqlMissingError e = false →
      RestoreController.isNonCriticalPsqlPermissionError e = true →
      env.tolerantError = none →
      (RestoreController.restoreDatabase env).1 =
        [.schemaReset, .runPsql false, .runPsql true, .postRepair,
          .unlinkUpload] ∧
      ((∀ n, env.expectedUsers = some n → 1 < n) →
        RestoreController.methodOf (RestoreController.restoreDatabase env).2 =
          some ("psql-tolerant".data))) ∧
    (∀ (env : RestoreController.RestoreEnv) (p : List Char)
      (e : RestoreController.ExecError) (ex sk : Nat),
      env.file = some p →
      env.psqlError = some e →
      RestoreController.isPsqlMissingError e = false →
      RestoreController.isNonCriticalPsqlPermissionError e = false →
      env.fallbackOutcome = .ok (ex, sk) →
      (RestoreController.restoreDatabase env).1 =
        [.schemaReset, .runPsql false, .schemaReset, .runFallback,
          .postRepair, .unlinkUpload] ∧
      ((∀ n, env.expectedUsers = some n → 1 < n) →
        RestoreController.methodOf (RestoreController.restoreDatabase env).2 =
          some ("pg-fallback(psql-failed)".data))) := by
  refine ⟨?_, ?_, ?_⟩
  · intro env p e ex sk hf hp hmiss hfb
    simp only [RestoreController.restoreDatabase, hf, hp, hmiss, hfb,
      if_true]
    refine ⟨?_, ?_, ?_⟩
    · cases hEU : env.expectedUsers with
      | none => rfl
      | some n =>
        by_cases h : n ≤ 1
        · simp [h]
        · simp [h]
    · intro hbig
      cases hEU : env.expectedUsers with
      | none => rfl
      | some n =>
        have h1 := hbig n hEU
        have h2 : ¬ n ≤ 1 := by omega
        simp [h2, RestoreController.methodOf]
    · intro n hEU hle
      rw [hEU]
      simp [hle, RestoreController.methodOf]
  · intro env p e hf hp hmiss hnc htol
    simp only [RestoreController.restoreDatabase, hf, hp, hmiss, hnc, htol,
      Bool.false_eq_true, if_false, if_true]
    refine ⟨?_, ?_⟩
    · cases hEU : env.expectedUsers with
      | none => rfl
      | some n =>
        by_cases h : n ≤ 1
        · simp [h]
        · simp [h]
    · intro hbig
      cases hEU : env.expectedUsers with
      | none => rfl
      | some n =>
        have h1 := hbig n hEU
        have h2 : ¬ n ≤ 1 := by omega
        simp [h2, RestoreController.methodOf]
  · intro env p e ex sk hf hp hmiss hnc hfb
    simp only [RestoreController.restoreDatabase, hf, hp, hmiss, hnc, hfb,
      Bool.false_eq_true, if_false]
    refine ⟨?_, ?_⟩
    · cases hEU : env.expectedUsers with
      | none => rfl
      | some n =>
        by_cases h : n ≤ 1
        · simp [h]
        · simp [h]
    · intro hbig
      cases hEU : env.expectedUsers with
      | none => rfl
      | some n =>
        have h1 := hbig n hEU
        have h2 : ¬ n ≤ 1 := by omega
        simp [h2, RestoreController.methodOf]

/-- A benign-permission native failure followed by a successful tolerant
retry, on a dump whose pre-scan expects three users. -/
def envTolerant : RestoreController.RestoreEnv :=
  ⟨some ("/tmp/upload.sql".data), some 3, some 4, some 5,
   some ⟨false, ("ERROR: must be member of role ".data ++ [qc] ++
     ("admin".data) ++ [qc]), []⟩, none, .ok (0, 0), .ok (3, 4, 5)⟩

/-- A missing-tool failure with a successful fallback, on a dump whose
pre-scan expects three users. -/
def envMissingPsql : RestoreController.RestoreEnv :=
  ⟨some ("/tmp/upload.sql".data), some 3, some 4, some 5,
   some ⟨true, ("spawn psql ENOENT".data), []⟩, none, .ok (12, 2),
   .ok (3, 4, 5)⟩

/--
C8, witness: the missing-tool bucket resets twice and falls back, reporting
`pg-fallback(no-psql)`; the benign bucket retries tolerantly once without a
second reset, reporting `psql-tolerant`; and the small-backup early return
of the counterexample environment omits the method.
-/
theorem C8_witness :
    (RestoreController.restoreDatabase envMissingPsql).1 =
        [.schemaReset, .runPsql false, .schemaReset, .runFallback,
          .postRepair, .unlinkUpload] ∧
      RestoreController.methodOf
          (RestoreController.restoreDatabase envMissingPsql).2 =
        some ("pg-fallback(no-psql)".data) ∧
      (RestoreController.restoreDatabase envTolerant).1 =
        [.schemaReset, .runPsql false, .runPsql true, .postRepair,
          .unlinkUpload] ∧
      RestoreController.methodOf
          (RestoreController.restoreDatabase envTolerant).2 =
        some ("psql-tolerant".data) ∧
      RestoreController.methodOf
        (RestoreController.restoreDatabase envSmallFallback).2 = none :=
  ⟨(C8_theorem.1 envMissingPsql ("/tmp/upload.sql".data)
      ⟨true, ("spawn psql ENOENT".data), []⟩ 12 2 rfl rfl (by decide)
      rfl).1,
   (C8_theorem.1 envMissingPsql ("/tmp/upload.sql".data)
      ⟨true, ("spawn psql ENOENT".data), []⟩ 12 2 rfl rfl (by decide)
      rfl).2.1 (by intro n hn; cases hn; decide),
   (C8_theorem.2.1 envTolerant ("/tmp/upload.sql".data)
      ⟨false, ("ERROR: must be member of role ".data ++ [qc] ++
        ("admin".data) ++ [qc]), []⟩ rfl rfl (by decide) (by decide)
      rfl).1,
   (C8_theorem.2.1 envTolerant ("/tmp/upload.sql".data)
      ⟨false, ("ERROR: must be member of role ".data ++ [qc] ++
        ("admin".data) ++ [qc]), []⟩ rfl rfl (by decide) (by decide)
      rfl).2 (by intro n hn; cases hn; decide),
   (C8_theorem.1 envSmallFallback ("/tmp/upload.sql".data)
      ⟨true, ("spawn psql ENOENT".data), []⟩ 12 0 rfl rfl (by decide)
      rfl).2.2 0 rfl (by decide)⟩

/--
C10: when the restore endpoint is invoked with no uploaded file it responds
400 with error `No file uploaded` and performs no action at all: no schema
reset, no restore execution, no post-restore repair, and no file deletion.
-/
theorem C10_theorem :
    ∀ env : RestoreController.RestoreEnv, env.file = none →
      RestoreController.restoreDatabase env =
        ([], .badRequest ("No file uploaded".data)) := by
  intro env hf
  simp only [RestoreController.restoreDatabase, hf]

/-- The environment of a restore request with no uploaded file. -/
def envNoFile : RestoreController.RestoreEnv :=
  ⟨none, none, none, none, none, none, .ok (0, 0), .ok (0, 0, 0)⟩

/--
C10, witness: the no-file request yields the bad-request response with an
empty action list.
-/
theorem C10_witness :
    RestoreController.restoreDatabase envNoFile =
      ([], .badRequest ("No file uploaded".data)) :=
  C10_theorem envNoFile rfl
